import Mathlib

/-!
Verification of the ChalakSure nutrition-claim checker.

This file shallowly embeds the numeric and string-processing core of
`nutrition_cal.py` and `nutrition_check.py` into Lean 4 and proves or refutes
the frozen claims about it.  Python floats are modelled as exact rationals
(`ℚ`); Python's `round` (banker's rounding) is modelled by `pyRound`;
dictionaries of optional nutrient values are association lists
`List (String × Option ℚ)`.
-/

set_option maxHeartbeats 1000000

/-- Python's built-in `round` to an integer: round half to even. -/
def pyRound (q : ℚ) : ℤ :=
  if q - ⌊q⌋ < 1/2 then ⌊q⌋
  else if q - ⌊q⌋ = 1/2 then (if ⌊q⌋ % 2 = 0 then ⌊q⌋ else ⌊q⌋ + 1)
  else ⌊q⌋ + 1

/-- ASCII lower-casing, `str.lower` restricted to the ASCII fragment used by
the nutrient names in this code base (Thai characters have no case). -/
def strLower (s : String) : String := String.mk (s.toList.map Char.toLower)

/-- A Python dict of optional nutrient amounts, as an association list in
insertion order. -/
abbrev ValuesDict := List (String × Option ℚ)

/-- `d.get(k)`: `none` both for a missing key and for a stored `None`. -/
def dget (d : ValuesDict) (k : String) : Option ℚ :=
  match d.find? (fun kv => kv.1 == k) with
  | some kv => kv.2
  | none => none

/-- `k in d` for a Python dict: key presence (even with a `None` value). -/
def hasKey (d : ValuesDict) (k : String) : Bool :=
  d.any (fun kv => kv.1 == k)

/-- `d[k] = v`: overwrite an existing binding in place, else append. -/
def dictSet (d : ValuesDict) (k : String) (v : Option ℚ) : ValuesDict :=
  if hasKey d k then d.map (fun kv => if kv.1 = k then (k, v) else kv)
  else d ++ [(k, v)]

/-- `d.update(u)` for the flows modelled here, where all updated keys are
fresh (`*_per_100kcal`, `*_rdi_percent`): appending preserves both the
lookups and Python's insertion iteration order. -/
def dictUpdate (d u : ValuesDict) : ValuesDict := d ++ u

/-- `round_nutrition_value` from `nutrition_cal.py` (lines 4-106): Thai-FDA
display rounding. The sentinels -0.1, -0.2, -0.3 flag the "less than X"
display cases. `precision` is the keyword argument (callers use 2). -/
def round_nutrition_value (value : ℚ) (nutrient_type : String) (precision : ℕ) : ℚ :=
  let t := strLower nutrient_type
  if ["energy", "พลังงาน", "calories", "พลังงานจากไขมัน"].contains t then
    if value < 5 then 0
    else if value < 50 then (pyRound (value / 5) : ℚ) * 5
    else (pyRound (value / 10) : ℚ) * 10
  else if ["fat", "saturated_fat", "ไขมันทั้งหมด", "ไขมันอิ่มตัว", "ไขมัน"].contains t then
    if value < 1/2 then 0
    else if value < 5 then (pyRound (value * 2) : ℚ) / 2
    else (pyRound value : ℚ)
  else if ["trans_fat", "ไขมันทรานส์"].contains t then
    if value = 0 then 0
    else if value < 1/2 then -1/10
    else if value < 5 then (pyRound (value * 2) : ℚ) / 2
    else (pyRound value : ℚ)
  else if ["cholesterol", "คอเลสเตอรอล"].contains t then
    if value < 2 then 0
    else if value < 5 then -1/5
    else (pyRound (value / 5) : ℚ) * 5
  else if ["protein", "carbohydrate", "fiber", "sugar",
           "โปรตีน", "คาร์โบไฮเดรต", "ใยอาหาร", "น้ำตาล"].contains t then
    if value < 1/2 then 0
    else if value < 1 then -3/10
    else (pyRound value : ℚ)
  else if ["sodium", "potassium", "โซเดียม", "โพแทสเซียม"].contains t then
    if value < 5 then 0
    else if value ≤ 140 then (pyRound (value / 5) : ℚ) * 5
    else (pyRound (value / 10) : ℚ) * 10
  else
    if value ≥ 100 then (pyRound value : ℚ)
    else if value ≥ 10 then (pyRound (value * 10) : ℚ) / 10
    else (pyRound (value * 10 ^ precision) : ℚ) / 10 ^ precision

/-- `adjust_per_100_to_serving` from `nutrition_cal.py` (lines 182-229):
scale per-100g/ml values to the reference serving, doubling reference
servings ≤ 30 g/ml unless the reference size was entered manually. -/
def adjust_per_100_to_serving (nutrient_values : ValuesDict)
    (serving_size ref_serving_size : ℚ) (is_user_input : Bool) : ValuesDict :=
  if serving_size ≤ 0 ∨ ref_serving_size ≤ 0 then nutrient_values
  else
    let conversion_factor := serving_size / 100
    let reference_factor := ref_serving_size / serving_size
    let adjustment_factor :=
      if ref_serving_size ≤ 30 ∧ is_user_input = false then
        conversion_factor * (2 * ref_serving_size) / serving_size
      else conversion_factor * reference_factor
    nutrient_values.map (fun kv =>
      match kv.2 with
      | some v => (kv.1, some (round_nutrition_value (v * adjustment_factor) kv.1 2))
      | none => (kv.1, none))

/-- `calculate_per_100kcal` from `nutrition_cal.py` (lines 252-278): protein
and fiber per 100 kcal, rounded per nutrient kind. -/
def calculate_per_100kcal (nutrient_values : ValuesDict) (energy_value : Option ℚ) :
    ValuesDict :=
  match energy_value with
  | none => []
  | some e =>
    if e ≤ 0 then []
    else
      ["protein", "fiber"].filterMap (fun k =>
        match dget nutrient_values k with
        | some v => some (k ++ "_per_100kcal", some (round_nutrition_value (v * (100 / e)) k 2))
        | none => none)

example : pyRound (1/2) = 0 := by norm_num [pyRound]
example : pyRound (3/2) = 2 := by norm_num [pyRound]
example : pyRound (-1/2) = 0 := by norm_num [pyRound]
example : round_nutrition_value 3 "cholesterol" 2 = -1/5 := by
  unfold round_nutrition_value
  rw [if_neg (by decide), if_neg (by decide), if_neg (by decide), if_pos (by decide)]
  norm_num
example : round_nutrition_value (-1/5) "cholesterol" 2 = 0 := by
  unfold round_nutrition_value
  rw [if_neg (by decide), if_neg (by decide), if_neg (by decide), if_pos (by decide)]
  norm_num
example : round_nutrition_value (7/10) "protein" 2 = -3/10 := by
  unfold round_nutrition_value
  rw [if_neg (by decide), if_neg (by decide), if_neg (by decide), if_neg (by decide),
    if_pos (by decide)]
  norm_num
example : round_nutrition_value (6/25) "sugar" 2 = 0 := by
  unfold round_nutrition_value
  rw [if_neg (by decide), if_neg (by decide), if_neg (by decide), if_neg (by decide),
    if_pos (by decide)]
  norm_num
example : round_nutrition_value 47 "energy" 2 = 45 := by
  unfold round_nutrition_value
  rw [if_pos (by decide)]
  norm_num [pyRound]

/-! ## String utilities for the `re`-based threshold grammar

Python's `re` patterns used in `nutrition_check.py` are fixed, so each one is
embedded as a deterministic parser over `List Char`.  `\w`, `\d` and `\s` are
modelled by their ASCII fragments, which cover the identifiers, numerals and
spacing of the threshold grammar in this code base. -/

def isWordC (c : Char) : Bool := c.isAlphanum || c = '_'

def skipWS (l : List Char) : List Char := l.dropWhile Char.isWhitespace

/-- Python `str.strip`. -/
def trimL (l : List Char) : List Char :=
  ((l.dropWhile Char.isWhitespace).reverse.dropWhile Char.isWhitespace).reverse

/-- Python's substring test `pat in s`. -/
def subOccurs (pat : List Char) : List Char → Bool
  | [] => pat.isEmpty
  | c :: rest => pat.isPrefixOf (c :: rest) || subOccurs pat rest

/-- Worker for `splitOnL`: when a separator occurrence was just found, `skip`
counts its remaining characters to pass over. Structural recursion on the
input so that the kernel can evaluate it. -/
def splitOnGo (sep : List Char) : List Char → ℕ → List Char → List (List Char)
  | [], _, acc => [acc.reverse]
  | _ :: rest, k+1, acc => splitOnGo sep rest k acc
  | c :: rest, 0, acc =>
    if sep.isPrefixOf (c :: rest) then
      acc.reverse :: splitOnGo sep rest (sep.length - 1) []
    else splitOnGo sep rest 0 (c :: acc)

/-- Python `s.split(sep)` for a non-empty separator: split on every
non-overlapping occurrence, left to right (`split("")` raises in Python and
is never used here). -/
def splitOnL (sep l : List Char) : List (List Char) := splitOnGo sep l 0 []

/-- The value of a digit run. -/
def digitsVal (ds : List Char) : ℕ := ds.foldl (fun a c => 10 * a + (c.toNat - 48)) 0

/-- Parse `\d+(\.\d+)?` at the head of `l`: the value of the matched text
under Python `float`, and the remaining input.  As in the regex, a dot with
no digit after it is not part of the match.  The value is built with
`Rat.divInt` (the exact value of the decimal literal). -/
def parseNum (l : List Char) : Option (ℚ × List Char) :=
  let ds := l.takeWhile Char.isDigit
  let r1 := l.dropWhile Char.isDigit
  if ds.isEmpty then none
  else
    match r1 with
    | '.' :: r2 =>
      let fs := r2.takeWhile Char.isDigit
      let r3 := r2.dropWhile Char.isDigit
      if fs.isEmpty then some (((digitsVal ds : ℤ) : ℚ), r1)
      else
        some (Rat.divInt ((digitsVal ds : ℤ) * 10 ^ fs.length + (digitsVal fs : ℤ))
          ((10 : ℤ) ^ fs.length), r3)
    | _ => some (((digitsVal ds : ℤ) : ℚ), r1)

/-- Candidates for `[<>≥≤]=?` at the head of the input, in the regex's
backtracking order (greedy `=?` first); each is (base char, `=` present,
rest). -/
def parseOpsFull : List Char → List (Char × Bool × List Char)
  | c :: '=' :: rest =>
    if ['<', '>', '≥', '≤'].contains c then [(c, true, rest), (c, false, '=' :: rest)]
    else []
  | c :: rest =>
    if ['<', '>', '≥', '≤'].contains c then [(c, false, rest)] else []
  | [] => []

/-- Candidates for `([<>]=?|[≤≥])` at the head of the input (the raw_ and
special-rule patterns): no `=` is read after a unicode operator. -/
def parseOpsRaw : List Char → List (Char × Bool × List Char)
  | c :: '=' :: rest =>
    if c = '<' ∨ c = '>' then [(c, true, rest), (c, false, '=' :: rest)]
    else if c = '≤' ∨ c = '≥' then [(c, false, '=' :: rest)]
    else []
  | c :: rest =>
    if ['<', '>', '≥', '≤'].contains c then [(c, false, rest)] else []
  | [] => []

/-- `eval(f"{value} {operator} {threshold}")` after `convert_operator`
(`≥` ↦ `>=`, `≤` ↦ `<=`).  `none` models the `SyntaxError` raised on the
unconverted two-character forms `≥=`/`≤=`, which the enclosing `except`
turns into `False`. -/
def evalOp (base : Char) (eq : Bool) (v t : ℚ) : Option Bool :=
  if base = '<' then some (if eq then decide (v ≤ t) else decide (v < t))
  else if base = '>' then some (if eq then decide (t ≤ v) else decide (t < v))
  else if base = '≥' then (if eq then none else some (decide (t ≤ v)))
  else if base = '≤' then (if eq then none else some (decide (v ≤ t)))
  else none

/-- As `evalOp` but for `evaluate_special_rule`, which does not apply
`convert_operator`: a unicode operator always raises in `eval`. -/
def evalOpRaw (base : Char) (eq : Bool) (v t : ℚ) : Option Bool :=
  if base = '<' then some (if eq then decide (v ≤ t) else decide (v < t))
  else if base = '>' then some (if eq then decide (t ≤ v) else decide (t < v))
  else none

/-- `re.match(r"raw_(\w+)\s*([<>]=?|[≤≥])\s*(\d+(\.\d+)?)", s)`:
captured name, operator and threshold value. -/
def rawMatch (l : List Char) : Option (String × Char × Bool × ℚ) :=
  match l with
  | 'r' :: 'a' :: 'w' :: '_' :: rest =>
    let nm := rest.takeWhile isWordC
    let r1 := rest.dropWhile isWordC
    if nm.isEmpty then none
    else
      (parseOpsRaw (skipWS r1)).findSome? (fun be =>
        match parseNum (skipWS be.2.2) with
        | some (q, _) => some (String.mk nm, be.1, be.2.1, q)
        | none => none)
  | _ => none

/-- Matching `([<>≥≤]=?)\s*(\d+(\.\d+)?)` at the head of the input. -/
def simpleMatch (l : List Char) : Option (Char × Bool × ℚ) :=
  (parseOpsFull l).findSome? (fun be =>
    match parseNum (skipWS be.2.2) with
    | some (q, _) => some (be.1, be.2.1, q)
    | none => none)

/-- Matching `([<>≥≤]=?|>=|<=)\s*(\d+(\.\d+)?)\s*%?\s*RDI` (IGNORECASE) at
the head of the input.  The first alternative subsumes the other two. -/
def rdiMatchAt (l : List Char) : Option (Char × Bool × ℚ) :=
  (parseOpsFull l).findSome? (fun be =>
    match parseNum (skipWS be.2.2) with
    | some (q, r2) =>
      let r3 := skipWS r2
      let r4 := match r3 with
        | '%' :: t => t
        | _ => r3
      match skipWS r4 with
      | c1 :: c2 :: c3 :: _ =>
        if c1.toLower = 'r' ∧ c2.toLower = 'd' ∧ c3.toLower = 'i' then
          some (be.1, be.2.1, q)
        else none
      | _ => none
    | none => none)

/-- `re.search` of the %RDI pattern: leftmost match. -/
def rdiSearch : List Char → Option (Char × Bool × ℚ)
  | [] => none
  | c :: rest =>
    match rdiMatchAt (c :: rest) with
    | some r => some r
    | none => rdiSearch rest

/-- `re.match(r"(.*?)\s*([<>≥≤]=?)\s*(\d+(\.\d+)?)", s)`: find the leftmost
operator-number occurrence reachable by `(.*?)\s*`.  `.` does not match a
newline, but `\s*` may cross one, so a position is viable as long as no
newline has a later non-whitespace character before the match (tracked by
`committed`/`pending`).  The returned prefix, stripped by the caller, equals
`group(1).strip()`. -/
def genSearch (committed pending : Bool) (acc : List Char) :
    List Char → Option (List Char × Char × Bool × ℚ)
  | [] => none
  | c :: rest =>
    if committed then none
    else
      match simpleMatch (c :: rest) with
      | some (b, e, q) => some (acc.reverse, b, e, q)
      | none =>
        if c = '\n' then genSearch committed true (c :: acc) rest
        else if c.isWhitespace then genSearch committed pending (c :: acc) rest
        else genSearch (committed || pending) false (c :: acc) rest

example : parseNum "15% RDI".toList = some (15, "% RDI".toList) := by decide
example : parseNum "0.5 xs".toList = some (Rat.divInt 5 10, " xs".toList) := by decide
example : (Rat.divInt 5 10 : ℚ) = 1/2 := by
  rw [Rat.divInt_eq_div]; norm_num
example : simpleMatch ">=15% RDI".toList = some ('>', true, 15) := by decide
example : rdiSearch ">=15% RDI".toList = some ('>', true, 15) := by decide
example : rawMatch "raw_sugar<=0.5".toList
    = some ("sugar", '<', true, Rat.divInt 5 10) := by decide
example : genSearch false false [] "fiber>=3".toList
    = some ("fiber".toList, '>', true, 3) := by decide
example : splitOnL "หรือ".toList "fiber>=3 หรือ fiber>=1.5".toList
    = ["fiber>=3 ".toList, " fiber>=1.5".toList] := by decide

/-! ## `nutrition_check.py`: nutrient-key normalisation and threshold evaluation -/

/-- `NUTRIENT_MAPPING`, in insertion (iteration) order. -/
def nutrientMapping : List (String × String) :=
  [("อิ่มตัว", "saturated_fat"), ("ทรานส์", "trans_fat"), ("คอเลสเตอรอล", "cholesterol"),
   ("พลังงาน", "energy"), ("โปรตีน", "protein"), ("ไขมัน", "fat"), ("น้ำตาล", "sugar"),
   ("ใยอาหาร", "fiber"), ("โซเดียม", "sodium")]

/-- The Thai-substring lookup loop of `normalize_nutrient_key`, including the
special case that skips the bare fat key for saturated/trans fat. -/
def normalizeKeyCore (n : String) : Option String :=
  nutrientMapping.findSome? (fun tk =>
    if subOccurs tk.1.toList n.toList then
      if tk.1 = "ไขมัน" ∧ (subOccurs "อิ่มตัว".toList n.toList ∨ subOccurs "ทรานส์".toList n.toList)
      then none
      else some tk.2
    else none)

/-- `normalize_nutrient_key` from `nutrition_check.py` (lines 224-239).  The
recursive call on `name.split("%")[0].strip()` is inlined: that base string
contains no `%`, so its own `%RDI` branch never fires. -/
def normalize_nutrient_key (name : String) : String :=
  let n := strLower name
  match normalizeKeyCore n with
  | some k => k
  | none =>
    if subOccurs ['%'] n.toList ∧ subOccurs "rdi".toList n.toList then
      let base := String.mk (trimL (n.toList.takeWhile (fun c => c ≠ '%')))
      (match normalizeKeyCore base with
       | some k => k
       | none => base) ++ "_rdi_percent"
    else n

def nonVmNutrients : List String :=
  ["energy", "พลังงาน", "kcal", "calories", "calorie",
   "fat", "ไขมัน", "ไขมันทั้งหมด",
   "saturated_fat", "ไขมันอิ่มตัว",
   "trans_fat", "ไขมันทรานส์",
   "cholesterol", "คอเลสเตอรอล",
   "carbohydrate", "คาร์โบไฮเดรต", "คาร์บ", "carb",
   "sugar", "น้ำตาล", "น้ำตาลทั้งหมด",
   "protein", "โปรตีน",
   "fiber", "ใยอาหาร", "dietary fiber"]

def thaiVitamins : List String :=
  ["วิตามินเอ", "วิตามินดี", "วิตามินอี", "วิตามินเค", "วิตามินซี",
   "วิตามินบี1", "วิตามินบี2", "วิตามินบี6", "วิตามินบี12", "ไทอามีน", "ไรโบฟลาวิน",
   "ไบโอติน", "โฟเลต", "ไนอะซิน", "กรดแพนโททีนิก", "โฟลิก", "กรดแพนโททีนิก",
   "แคลเซียม", "เหล็ก", "ฟอสฟอรัส", "แมกนีเซียม", "สังกะสี",
   "ไอโอดีน", "ทองแดง", "ซีลีเนียม", "แมงกานีส", "โมลิบดีนัม",
   "โครเมียม", "โพแทสเซียม", "คลอไรด์"]

def engKeywords : List String :=
  ["vitamin", "mineral",
   "a", "d", "e", "k", "c", "b",
   "b1", "b2", "b3", "b6", "b12",
   "thiamine", "riboflavin", "niacin", "pantothenic", "biotin",
   "folate", "folic", "cobalamin", "ascorbic",
   "calcium", "phosphorus", "iron", "potassium", "zinc",
   "magnesium", "iodine", "selenium", "copper", "manganese",
   "molybdenum", "chromium", "chloride"]

/-- `is_vitamin_or_mineral` from `nutrition_check.py` (lines 1942-2006):
substring screens against the lower-cased key. -/
def is_vitamin_or_mineral (nutrient_key : String) : Bool :=
  if nutrient_key = "" then false
  else
    let n := (strLower nutrient_key).toList
    if nonVmNutrients.any (fun p => subOccurs p.toList n) then false
    else if subOccurs "sodium".toList n || subOccurs "โซเดียม".toList n then false
    else if thaiVitamins.any (fun p => subOccurs (strLower p).toList n) then true
    else if engKeywords.any (fun p => subOccurs (strLower p).toList n) then true
    else false

/-- One step of `evaluate_threshold` (`nutrition_check.py` lines 153-222),
with a structural fuel for the recursion through `หรือ`/`และ` splits.  The
branches appear in the source's order: `raw_` match (only when
`label_values` is supplied, and passing when the raw value is absent), %RDI
search, simple leading comparison, OR split, AND split, generic
`name op number` match, else `False`.  Exceptions (`eval` on an unconverted
`≥=`/`≤=`) yield `False` for the call, as the enclosing `except` does. -/
def evalThreshold : ℕ → String → ValuesDict → String → Option ValuesDict → Bool
  | 0, _, _, _, _ => false
  | fuel+1, tstr, values, nkey, label =>
    let t := tstr.toList
    match rawMatch t, label with
    | some (nm, b, e, q), some lv =>
      (match dget lv nm with
       | none => true
       | some v => (evalOp b e v q).getD false)
    | _, _ =>
      match rdiSearch (trimL t) with
      | some (b, e, q) =>
        (match dget values (nkey ++ "_rdi_percent") with
         | none => false
         | some v => (evalOp b e v q).getD false)
      | none =>
        match simpleMatch (trimL t) with
        | some (b, e, q) =>
          (match dget values nkey with
           | none => false
           | some v => (evalOp b e v q).getD false)
        | none =>
          if subOccurs "หรือ".toList t then
            (splitOnL "หรือ".toList t).any
              (fun p => evalThreshold fuel (String.mk (trimL p)) values nkey label)
          else if subOccurs "และ".toList t then
            (splitOnL "และ".toList t).all
              (fun p => evalThreshold fuel (String.mk (trimL p)) values nkey label)
          else
            match genSearch false false [] t with
            | some (pre, b, e, q) =>
              (match dget values (normalize_nutrient_key (String.mk (trimL pre))) with
               | none => false
               | some v => (evalOp b e v q).getD false)
            | none => false

/-- `evaluate_threshold`.  Each split piece is at least three characters
shorter than its parent (both separators have ≥ 3 characters), so fuel
`length + 1` is never exhausted: the recursion depth on a piece is always
below its remaining fuel. -/
def evaluate_threshold (tstr : String) (values : ValuesDict) (nkey : String)
    (label : Option ValuesDict) : Bool :=
  evalThreshold (tstr.toList.length + 1) tstr values nkey label

example : normalize_nutrient_key "fiber" = "fiber" := by decide
example : normalize_nutrient_key "ไขมันอิ่มตัว" = "saturated_fat" := by decide
example : normalize_nutrient_key "โปรตีน %rdi" = "protein" := by decide
example : normalize_nutrient_key "fiber %rdi" = "fiber_rdi_percent" := by decide
example : is_vitamin_or_mineral "sugar" = false := by decide
example : is_vitamin_or_mineral "vitamin_c" = true := by decide
example : is_vitamin_or_mineral "potassium" = true := by decide
example : is_vitamin_or_mineral "sodium" = false := by decide

example : evaluate_threshold ">=15% RDI" [("vitamin_c_rdi_percent", some 15)]
    "vitamin_c" none = true := by decide
example : evaluate_threshold ">=10% RDI" [] "iron" none = false := by decide
example : evaluate_threshold "raw_sugar<=0.5" [] "sugar" (some []) = true := by decide
example : evaluate_threshold "fiber>=3 หรือ fiber>=1.5" [("fiber", some 2)]
    "fiber" none = true := by decide
example : evaluate_threshold "fiber>=3 และ sugar<=5" [("fiber", some 2), ("sugar", some 3)]
    "fiber" none = false := by decide
example : evaluate_threshold ">=100 หรือ >=1" [("fiber", some 2)] "fiber" none = false := by
  decide
example : evaluate_threshold ">=1" [("fiber", some 2)] "fiber" none = true := by decide

/-! ## `nutrition_check.py`: special rules, RDI threshold formatting, and the
per-claim-rule result of `show` (lines 1112-1457) -/

/-- `re.match(r"(\w+)\s*([<>]=?|[≤≥])\s*(\d+(\.\d+)?)", rule)` used by
`evaluate_special_rule`. -/
def wordOpNumMatch (l : List Char) : Option (String × Char × Bool × ℚ) :=
  let nm := l.takeWhile isWordC
  let r1 := l.dropWhile isWordC
  if nm.isEmpty then none
  else
    (parseOpsRaw (skipWS r1)).findSome? (fun be =>
      match parseNum (skipWS be.2.2) with
      | some (q, _) => some (String.mk nm, be.1, be.2.1, q)
      | none => none)

/-- `evaluate_special_rule` from `nutrition_check.py` (lines 251-292):
comma-separated rules, each checked against `values_dict` and (when given)
`label_values`; a missing value or failed comparison fails the whole check,
and non-matching rules are skipped.  A unicode operator raises in `eval`
(no `convert_operator` here) and the `except` returns `False`; since one
failing conjunct already fails the conjunction, this is `Bool.and`-composed
per rule. -/
def evaluate_special_rule (specialRule : Option String) (values : ValuesDict)
    (label : Option ValuesDict) : Bool :=
  match specialRule with
  | none => true
  | some s =>
    if s = "" then true
    else
      (splitOnL [','] s.toList).all (fun r =>
        match wordOpNumMatch (trimL r) with
        | none => true
        | some (nm, b, e, q) =>
          (match dget values nm with
           | none => false
           | some v => (evalOpRaw b e v q).getD false)
          &&
          (match label with
           | none => true
           | some lv =>
             match dget lv nm with
             | none => false
             | some v => (evalOpRaw b e v q).getD false))

/-- `re.search(r'([<>≥≤]=?)\s*(\d+(\.\d+)?)', s)` keeping the matched texts
(operator characters, number characters), for `format_rdi_threshold`. -/
def fmtMatchAt (l : List Char) : Option (List Char × List Char) :=
  (parseOpsFull l).findSome? (fun be =>
    let l2 := skipWS be.2.2
    let ds := l2.takeWhile Char.isDigit
    let r1 := l2.dropWhile Char.isDigit
    if ds.isEmpty then none
    else
      let nt := match r1 with
        | '.' :: r2 =>
          let fs := r2.takeWhile Char.isDigit
          if fs.isEmpty then ds else ds ++ ['.'] ++ fs
        | _ => ds
      some ((if be.2.1 then [be.1, '='] else [be.1]), nt))

def fmtSearch : List Char → Option (List Char × List Char)
  | [] => none
  | c :: rest =>
    match fmtMatchAt (c :: rest) with
    | some r => some r
    | none => fmtSearch rest

/-- Python `float(s)` acceptance, restricted to the unsigned decimal
literals that occur as RDI thresholds in the claims data. -/
def floatParseOk (l : List Char) : Bool :=
  let ds := l.takeWhile Char.isDigit
  let r := l.dropWhile Char.isDigit
  match r with
  | [] => !ds.isEmpty
  | '.' :: r2 => (!ds.isEmpty || !r2.isEmpty) && r2.all Char.isDigit
  | _ => false

/-- `format_rdi_threshold` from `nutrition_check.py` (lines 2358-2395).
`none` models returning Python `None` (and the `nan`/empty guards). -/
def format_rdi_threshold (s : String) : Option String :=
  if s = "" ∨ s = "nan" then none
  else
    let t := String.mk (trimL s.toList)
    let hasOp := [">=", "<=", ">", "<", "≥", "≤"].any
      (fun op => subOccurs op.toList t.toList)
    match fmtSearch t.toList with
    | some (opT, numT) =>
      if subOccurs "RDI".toList t.toList then some t
      else some (String.mk opT ++ " " ++ String.mk numT ++ "% RDI")
    | none =>
      if subOccurs "RDI".toList t.toList = false then
        (if floatParseOk t.toList then some (">= " ++ t ++ "% RDI") else none)
      else if hasOp then some t
      else some (">= " ++ t)

/-- The label-value comparison dict of `show` (lines 1342-1357): per-label
%RDI entries are added for protein, fiber and vitamins/minerals, from the
amounts already in the dict.  `rdiOf` is `get_rdi_value(·, thai_rdis)`
composed over the `Thai_RDIs.csv` data, passed as a lookup parameter. -/
def build_label_comparison (label : ValuesDict) (rdiOf : String → Option ℚ) : ValuesDict :=
  (label.map Prod.fst).foldl (fun acc k =>
    if k = "protein" ∨ k = "fiber" ∨ is_vitamin_or_mineral k = true then
      match rdiOf k, dget acc k with
      | some rdi, some amt =>
        if 0 < rdi then dictSet acc (k ++ "_rdi_percent") (some (amt / rdi * 100)) else acc
      | _, _ => acc
    else acc) label

/-- `"สูง" in claim_text or "high" in claim_text.lower() or "rich" in ...`. -/
def highClaim (ct : String) : Bool :=
  subOccurs "สูง".toList ct.toList || subOccurs "high".toList (strLower ct).toList
    || subOccurs "rich".toList (strLower ct).toList

/-- `"แหล่งของ" in claim_text or ("source" in lower and "excellent source"
not in lower)` (lines 1255, 1283, 1452). -/
def sourceClaimA (ct : String) : Bool :=
  subOccurs "แหล่งของ".toList ct.toList
    || (subOccurs "source".toList (strLower ct).toList
        && !(subOccurs "excellent source".toList (strLower ct).toList))

/-- The variant at line 1182: `"แหล่งของ" in claim_text or " source " in
(" " + lower + " ") or lower.startswith("source")`. -/
def sourceClaimB (ct : String) : Bool :=
  subOccurs "แหล่งของ".toList ct.toList
    || subOccurs " source ".toList (' ' :: (strLower ct).toList ++ [' '])
    || "source".toList.isPrefixOf (strLower ct).toList

/-- Fiber logic for a `nan` threshold on a liquid food outside list 2
(lines 1158-1191; the duplicated `elif` for high claims collapses). -/
def fiberNanLiquid (ct : String) (adjusted : ValuesDict) : Bool :=
  match dget adjusted "fiber" with
  | some fv =>
    if highClaim ct then decide (3 ≤ fv)
    else if sourceClaimB ct then decide (3/2 ≤ fv)
    else false
  | none => false

/-- The default per-100g/ml result, `show` lines 1205-1213: the primary
threshold on the adjusted values, reset to false for liquid fiber outside
list 2. -/
def thresholdPrimary (inList2 : Bool) (foodState thr nkey : String)
    (adjusted : ValuesDict) : Bool :=
  if nkey = "fiber" ∧ inList2 = false ∧ foodState = "liquid" then false
  else evaluate_threshold thr adjusted nkey none

/-- The threshold part of `adjusted_result`, `show` lines 1141-1268: the
`nan`-threshold fiber cases, and the per-100kcal OR for protein/fiber
outside list 2. -/
def thresholdBase (inList2 : Bool) (foodState ct thr t100 nkey : String)
    (adjusted : ValuesDict) : Bool :=
  if thr = "nan" then
    (if nkey = "fiber" ∧ inList2 = false then
      (if foodState = "liquid" then fiberNanLiquid ct adjusted else true)
    else true)
  else
    if inList2 = false ∧ t100 ≠ "nan" ∧ (nkey = "protein" ∨ nkey = "fiber") then
      if hasKey adjusted (nkey ++ "_per_100kcal") then
        if nkey = "fiber" ∧ foodState = "liquid" ∧ inList2 = false then
          (match dget adjusted "fiber", dget adjusted "fiber_per_100kcal" with
           | some _, some f100 =>
             if highClaim ct then decide (3 ≤ f100)
             else if sourceClaimA ct then decide (3/2 ≤ f100)
             else false
           | _, _ => false)
        else thresholdPrimary inList2 foodState thr nkey adjusted
          || evaluate_threshold t100 [(nkey, dget adjusted (nkey ++ "_per_100kcal"))] nkey none
      else thresholdPrimary inList2 foodState thr nkey adjusted
    else thresholdPrimary inList2 foodState thr nkey adjusted

/-- The stricter fiber re-check for list-2 foods, `show` lines 1270-1287. -/
def fiberList2Override (inList2 : Bool) (foodState ct nkey : String) (adjusted : ValuesDict)
    (base : Bool) : Bool :=
  if inList2 = true ∧ nkey = "fiber" then
    (match dget adjusted "fiber" with
     | some fv =>
       if foodState = "liquid" then
         if highClaim ct then decide (3 ≤ fv)
         else if sourceClaimA ct then decide (3/2 ≤ fv)
         else base
       else base
     | none => base)
  else base

/-- The `threshold_rdi` factor, `show` lines 1289-1301. -/
def rdiBase (trdi nkey : String) (adjusted : ValuesDict) : Bool :=
  if trdi ≠ "" ∧ trimL trdi.toList ≠ [] ∧ trdi ≠ "nan" then
    (if hasKey adjusted (nkey ++ "_rdi_percent") then
      (match format_rdi_threshold trdi with
       | some s => evaluate_threshold s adjusted nkey none
       | none => false)
    else false)
  else true

/-- The %RDI factor with the per-100kcal OR for vitamins/minerals outside
list 2, `show` lines 1289-1320. -/
def rdiFactor (inList2 : Bool) (trdi trdi100 nkey : String) (adjusted : ValuesDict) : Bool :=
  if inList2 = false ∧ trdi100 ≠ "nan" ∧ is_vitamin_or_mineral nkey = true then
    rdiBase trdi nkey adjusted || evaluate_threshold trdi100
      [(nkey ++ "_rdi_percent", dget adjusted (nkey ++ "_rdi_percent_per_100kcal"))] nkey none
  else rdiBase trdi nkey adjusted

/-- The saturated-fat-energy veto, `show` lines 1325-1332. -/
def satVeto (satCond : Bool) (adjusted : ValuesDict) (res : Bool) : Bool :=
  if satCond then
    (match dget adjusted "saturated_fat" with
     | some _ =>
       if res then
         (match dget adjusted "saturated_fat_energy_percent" with
          | some pct => if 10 < pct then false else res
          | none => res)
       else res
     | none => res)
  else res

/-- `adjusted_result` of one claim row, `show` lines 1141-1332: threshold on
the adjusted values, the fiber special cases, the per-100kcal OR for
protein/fiber outside list 2, the %RDI factor, and the saturated-fat-energy
veto. -/
def adjustedResultDef (inList2 : Bool) (foodState ct thr t100 trdi trdi100 : String)
    (satCond : Bool) (nkey : String) (adjusted : ValuesDict) : Bool :=
  satVeto satCond adjusted
    (fiberList2Override inList2 foodState ct nkey adjusted
        (thresholdBase inList2 foodState ct thr t100 nkey adjusted)
      && rdiFactor inList2 trdi trdi100 nkey adjusted)

/-- `label_result` of one claim row, `show` lines 1337-1391: only computed
for list-2 foods with a non-empty label dict. -/
def labelResultDef (inList2 : Bool) (thr trdi : String) (satCond : Bool) (nkey : String)
    (labelValues : ValuesDict) (rdiOf : String → Option ℚ) : Bool :=
  if inList2 = true ∧ labelValues ≠ [] then
    let lc := build_label_comparison labelValues rdiOf
    let ltr := if thr = "nan" then true else evaluate_threshold thr lc nkey none
    let lrr :=
      if trdi ≠ "" ∧ trimL trdi.toList ≠ [] ∧ trdi ≠ "nan" then
        (if hasKey lc (nkey ++ "_rdi_percent") then
          (match format_rdi_threshold trdi with
           | some s => evaluate_threshold s lc nkey none
           | none => false)
        else false)
      else true
    let lr := ltr && lrr
    if satCond then
      (match dget labelValues "saturated_fat" with
       | some _ =>
         if lr then
           (match dget labelValues "saturated_fat_energy_percent" with
            | some pct => if 10 < pct then false else lr
            | none => lr)
         else lr
       | none => lr)
    else lr
  else false

/-- The sugar-free dual-rounding veto, `show` lines 1405-1412: a claim text
containing "ปราศจาก" for sugar under the per-100g/ml analysis method fails
unless both the label-serving and reference-serving sugar values are
(rounded to) exactly 0. -/
def postSugarVeto (nkey ct : String) (methodAnalysis : Bool)
    (adjusted labelValues : ValuesDict) (r : Bool) : Bool :=
  if nkey = "sugar" ∧ subOccurs "ปราศจาก".toList ct.toList = true ∧ methodAnalysis = true then
    (if dget labelValues "sugar" = some 0 ∧ dget adjusted "sugar" = some 0 then r else false)
  else r

/-- The special-rule step, `show` lines 1414-1430. -/
def postSpecialRule (inList2 : Bool) (specialRule : Option String) (groupServing : ℚ)
    (groupUnit : String) (adjusted labelValues nutrientValues : ValuesDict) (r : Bool) :
    Bool :=
  match specialRule with
  | some sp =>
    if r = true ∧ trimL sp.toList ≠ [] then
      let sres :=
        if inList2 then
          (if ["กรัม", "g", "ml", "มิลลิลิตร"].contains (strLower groupUnit) ∧
              groupServing ≤ 30 then
            evaluate_special_rule (some sp) nutrientValues none
              || evaluate_special_rule (some sp) adjusted (some labelValues)
          else evaluate_special_rule (some sp) adjusted (some labelValues))
        else evaluate_special_rule (some sp) adjusted none
      r && sres
    else r
  | none => r

/-- The post-hoc fiber-per-100kcal veto, `show` lines 1442-1457. -/
def postFiberVeto (inList2 : Bool) (foodState ct thr t100 nkey : String)
    (adjusted : ValuesDict) (r : Bool) : Bool :=
  if r = true ∧ thr = "nan" ∧ t100 ≠ "nan" ∧ nkey = "fiber" ∧ inList2 = false ∧
      foodState = "liquid" then
    (let f100 := (dget adjusted "fiber_per_100kcal").getD 0
     if highClaim ct then (if f100 < 3 then false else r)
     else if sourceClaimA ct then (if f100 < 3/2 then false else r)
     else r)
  else r

/-- The full result of one claim row in `show` (lines 1112-1457): `none`
models the `continue` that skips nutrients with no supplied value.  The
steps after the adjusted/label conjunction only ever turn the result from
pass to fail: the sugar-free dual-rounding veto (1405-1412), the special
rule (1414-1430), and the post-hoc fiber-per-100kcal veto (1442-1457). -/
def claimRuleResult (inList2 methodAnalysis : Bool)
    (foodState nutrient ct thr t100 trdi trdi100 : String)
    (satCond : Bool) (specialRule : Option String) (groupServing : ℚ) (groupUnit : String)
    (adjusted labelValues nutrientValues : ValuesDict) (rdiOf : String → Option ℚ) :
    Option Bool :=
  match dget adjusted (normalize_nutrient_key nutrient) with
  | none => none
  | some _ =>
    some (postFiberVeto inList2 foodState ct thr t100 (normalize_nutrient_key nutrient)
      adjusted
      (postSpecialRule inList2 specialRule groupServing groupUnit adjusted labelValues
        nutrientValues
        (postSugarVeto (normalize_nutrient_key nutrient) ct methodAnalysis adjusted
          labelValues
          (if inList2 = true ∧ labelValues ≠ [] then
            adjustedResultDef inList2 foodState ct thr t100 trdi trdi100 satCond
                (normalize_nutrient_key nutrient) adjusted
              && labelResultDef inList2 thr trdi satCond (normalize_nutrient_key nutrient)
                  labelValues rdiOf
          else adjustedResultDef inList2 foodState ct thr t100 trdi trdi100 satCond
            (normalize_nutrient_key nutrient) adjusted))))

example : claimRuleResult false false "solid" "protein" "x" ">=10" ">=10" "nan" "nan"
    false none 0 "" [("protein", some 6), ("energy", some 50), ("protein_per_100kcal", some 12)]
    [] [] (fun _ => none) = some true := by decide
example : claimRuleResult true false "solid" "sugar" "x" "<=0.5" "nan" "nan" "nan"
    false none 30 "กรัม" [("sugar", some 1)] [("sugar", some 0)] [] (fun _ => none)
    = some false := by decide
example : claimRuleResult true true "solid" "sugar" "ปราศจากน้ำตาล" "<=0.5" "nan" "nan" "nan"
    false none 30 "กรัม" [("sugar", some 0)] [("sugar", some 0)] [] (fun _ => none)
    = some true := by decide
example : claimRuleResult true true "solid" "sugar" "ปราศจากน้ำตาล" "<=0.5" "nan" "nan" "nan"
    false none 30 "กรัม" [("sugar", some 0)] [("sugar", some 1)] [] (fun _ => none)
    = some false := by decide

/-! ## Support lemmas for Python rounding -/

theorem pyRound_intCast (n : ℤ) : pyRound ((n : ℚ)) = n := by
  simp [pyRound]

theorem pyRound_ge_floor (q : ℚ) : ⌊q⌋ ≤ pyRound q := by
  unfold pyRound
  split_ifs <;> omega

theorem pyRound_le_floor_add_one (q : ℚ) : pyRound q ≤ ⌊q⌋ + 1 := by
  unfold pyRound
  split_ifs <;> omega

theorem le_pyRound_of_le {n : ℤ} {q : ℚ} (h : (n : ℚ) ≤ q) : n ≤ pyRound q :=
  le_trans (Int.le_floor.mpr h) (pyRound_ge_floor q)

theorem pyRound_le_of_le {n : ℤ} {q : ℚ} (h : q ≤ (n : ℚ)) : pyRound q ≤ n := by
  have hf : ⌊q⌋ ≤ n := by
    have h2 := Int.floor_mono h
    rwa [Int.floor_intCast] at h2
  rcases lt_or_eq_of_le hf with hlt | heq
  · have := pyRound_le_floor_add_one q
    omega
  · have hq : q = (n : ℚ) := by
      refine le_antisymm h ?_
      rw [← heq]
      exact Int.floor_le q
    rw [hq, pyRound_intCast]

/-! ## C9: guard on non-positive serving sizes -/

/-- C9: when `serving_size ≤ 0` or `ref_serving_size ≤ 0`,
`adjust_per_100_to_serving` returns its input unchanged: no entry is scaled
or rounded, and `None` entries stay `None`. -/
theorem C9_adjust_guard_identity (nv : ValuesDict) (s r : ℚ) (u : Bool)
    (h : s ≤ 0 ∨ r ≤ 0) :
    adjust_per_100_to_serving nv s r u = nv := by
  unfold adjust_per_100_to_serving
  rw [if_pos h]

theorem C9_adjust_guard_identity_witness :
    adjust_per_100_to_serving [("sugar", some 2), ("fat", none)] 0 30 false
      = [("sugar", some 2), ("fat", none)] :=
  C9_adjust_guard_identity _ 0 30 false (Or.inl le_rfl)

/-! ## C1: the scale factor of `adjust_per_100_to_serving` -/

/-- The effective reference serving size as the spec states it: the database
reference itself when it exceeds 30 g/ml or was entered manually, else its
double. -/
def effective_reference (r : ℚ) (manual : Bool) : ℚ :=
  if 30 < r ∨ manual = true then r else 2 * r

/-- With positive sizes, `adjust_per_100_to_serving` maps every supplied
value `v` to the rounding of `v * effective_reference / 100`. -/
theorem adjust_per_100_eq_map (nv : ValuesDict) (s r : ℚ) (u : Bool)
    (hs : 0 < s) (hr : 0 < r) :
    adjust_per_100_to_serving nv s r u
      = nv.map (fun kv => (kv.1, kv.2.map (fun v =>
          round_nutrition_value (v * (effective_reference r u / 100)) kv.1 2))) := by
  have hs0 : s ≠ 0 := ne_of_gt hs
  have hfac : (if r ≤ 30 ∧ u = false then s / 100 * (2 * r) / s else s / 100 * (r / s))
      = effective_reference r u / 100 := by
    unfold effective_reference
    by_cases hc : r ≤ 30 ∧ u = false
    · have hne : ¬(30 < r ∨ u = true) := by
        rintro (h30 | hu)
        · exact absurd hc.1 (not_le.mpr h30)
        · rw [hc.2] at hu
          cases hu
      rw [if_pos hc, if_neg hne]
      field_simp
      ring
    · rw [if_neg hc, if_pos ?_]
      · field_simp
        ring
      · by_cases h30 : 30 < r
        · exact Or.inl h30
        · right
          rcases Bool.eq_false_or_eq_true u with hu | hu
          · exact hu
          · exact absurd ⟨not_lt.mp h30, hu⟩ hc
  unfold adjust_per_100_to_serving
  rw [if_neg (by push_neg; exact ⟨hs, hr⟩)]
  simp only [hfac]
  apply List.map_congr_left
  intro kv _
  cases kv.2 <;> simp [Option.map]

/-- C1: with positive serving and reference sizes, every supplied per-100
value is scaled by `effective_reference / 100` before per-nutrient rounding
(so the factor is `r/100` when `r > 30` or the reference was manual, and
`2r/100` otherwise); in particular a 20 g reference is treated as 40 g when
not manual and as 20 g when manual. -/
theorem C1_conversion_scale (nv : ValuesDict) (s r : ℚ) (u : Bool)
    (hs : 0 < s) (hr : 0 < r) :
    adjust_per_100_to_serving nv s r u
      = nv.map (fun kv => (kv.1, kv.2.map (fun v =>
          round_nutrition_value (v * (effective_reference r u / 100)) kv.1 2)))
    ∧ effective_reference 20 false = 40 ∧ effective_reference 20 true = 20 :=
  ⟨adjust_per_100_eq_map nv s r u hs hr, by norm_num [effective_reference],
    by norm_num [effective_reference]⟩

theorem C1_conversion_scale_witness :
    (adjust_per_100_to_serving [("sugar", some 2)] 25 20 false
      = [("sugar", some 2)].map (fun kv => (kv.1, kv.2.map (fun v =>
          round_nutrition_value (v * (effective_reference 20 false / 100)) kv.1 2)))
    ∧ effective_reference 20 false = 40 ∧ effective_reference 20 true = 20) :=
  C1_conversion_scale [("sugar", some 2)] 25 20 false (by norm_num) (by norm_num)

/-! ## Branch lemmas for `evalThreshold` at one fuel step -/

theorem evalThreshold_raw_branch (fuel : ℕ) (tstr : String) (values : ValuesDict)
    (nkey : String) (lv : ValuesDict) (nm : String) (b : Char) (e : Bool) (q : ℚ)
    (hm : rawMatch tstr.toList = some (nm, b, e, q)) :
    evalThreshold (fuel+1) tstr values nkey (some lv)
      = (match dget lv nm with
         | none => true
         | some v => (evalOp b e v q).getD false) := by
  simp only [evalThreshold, hm]

theorem evalThreshold_rdi_branch (fuel : ℕ) (tstr : String) (values : ValuesDict)
    (nkey : String) (label : Option ValuesDict) (b : Char) (e : Bool) (q : ℚ)
    (hraw : rawMatch tstr.toList = none)
    (hm : rdiSearch (trimL tstr.toList) = some (b, e, q)) :
    evalThreshold (fuel+1) tstr values nkey label
      = (match dget values (nkey ++ "_rdi_percent") with
         | none => false
         | some v => (evalOp b e v q).getD false) := by
  simp only [evalThreshold, hraw, hm]

theorem evalThreshold_or_branch (fuel : ℕ) (tstr : String) (values : ValuesDict)
    (nkey : String) (label : Option ValuesDict)
    (hraw : rawMatch tstr.toList = none)
    (hrdi : rdiSearch (trimL tstr.toList) = none)
    (hsimple : simpleMatch (trimL tstr.toList) = none)
    (hor : subOccurs "หรือ".toList tstr.toList = true) :
    evalThreshold (fuel+1) tstr values nkey label
      = (splitOnL "หรือ".toList tstr.toList).any
          (fun p => evalThreshold fuel (String.mk (trimL p)) values nkey label) := by
  simp only [evalThreshold, hraw, hrdi, hsimple, hor, if_true]

theorem evalThreshold_and_branch (fuel : ℕ) (tstr : String) (values : ValuesDict)
    (nkey : String) (label : Option ValuesDict)
    (hraw : rawMatch tstr.toList = none)
    (hrdi : rdiSearch (trimL tstr.toList) = none)
    (hsimple : simpleMatch (trimL tstr.toList) = none)
    (hor : subOccurs "หรือ".toList tstr.toList = false)
    (hand : subOccurs "และ".toList tstr.toList = true) :
    evalThreshold (fuel+1) tstr values nkey label
      = (splitOnL "และ".toList tstr.toList).all
          (fun p => evalThreshold fuel (String.mk (trimL p)) values nkey label) := by
  simp only [evalThreshold, hraw, hrdi, hsimple, hor, hand, Bool.false_eq_true, if_false,
    if_true]

theorem evalThreshold_gen_branch (fuel : ℕ) (tstr : String) (values : ValuesDict)
    (nkey : String) (label : Option ValuesDict) (pre : List Char) (b : Char) (e : Bool)
    (q : ℚ)
    (hraw : rawMatch tstr.toList = none)
    (hrdi : rdiSearch (trimL tstr.toList) = none)
    (hsimple : simpleMatch (trimL tstr.toList) = none)
    (hor : subOccurs "หรือ".toList tstr.toList = false)
    (hand : subOccurs "และ".toList tstr.toList = false)
    (hg : genSearch false false [] tstr.toList = some (pre, b, e, q)) :
    evalThreshold (fuel+1) tstr values nkey label
      = (match dget values (normalize_nutrient_key (String.mk (trimL pre))) with
         | none => false
         | some v => (evalOp b e v q).getD false) := by
  simp only [evalThreshold, hraw, hrdi, hsimple, hor, hand, hg, Bool.false_eq_true, if_false]

/-! ## C4: a raw_ threshold with the raw value absent -/

/-- C4 counterexample: the claim says `evaluate_threshold` fails closed
(returns false) on `raw_<nutrient><op><number>` when the raw value is
absent from `label_values`; at the explicit input
`("raw_sugar<=0.5", values={}, nutrient="sugar", label_values={})` the code
returns `True`. -/
theorem C4_raw_absent_counterexample :
    evaluate_threshold "raw_sugar<=0.5" [] "sugar" (some []) = true
    ∧ ¬ evaluate_threshold "raw_sugar<=0.5" [] "sugar" (some []) = false := by
  exact ⟨by decide, by decide⟩

/-- C4 (amended): when a `label_values` mapping is supplied but the raw
nutrient's value is absent (missing key or `None`), the `raw_` branch
returns `True` — it fails open, not closed.  Only when `label_values` is
`None` is the `raw_` branch skipped, and the expression then falls through
to the generic lookup, which is false when the literal key `raw_sugar` has
no value. -/
theorem C4_raw_absent_fails_open (lv values : ValuesDict) (nkey : String)
    (h : dget lv "sugar" = none) :
    evaluate_threshold "raw_sugar<=0.5" values nkey (some lv) = true
    ∧ evaluate_threshold "raw_sugar<=0.5" [] "sugar" none = false := by
  constructor
  · unfold evaluate_threshold
    rw [evalThreshold_raw_branch _ _ _ _ _ "sugar" '<' true (Rat.divInt 5 10) (by decide), h]
  · decide

theorem C4_raw_absent_fails_open_witness :
    evaluate_threshold "raw_sugar<=0.5" [("fat", some 1)] "protein"
      (some [("fat", some 1)]) = true
    ∧ evaluate_threshold "raw_sugar<=0.5" [] "sugar" none = false :=
  C4_raw_absent_fails_open [("fat", some 1)] [("fat", some 1)] "protein" (by decide)

/-! ## C6: %RDI threshold semantics -/

/-- C6: `<op><number>% RDI` thresholds compare the stored
`<nutrient>_rdi_percent` figure against the number, with inclusive `>=`/`<=`
(and `≥`/`≤`) and exclusive `>`/`<`; the spec's concrete instances hold, and
a missing %RDI entry yields false without an exception. -/
theorem C6_rdi_percent_comparison :
    (∀ v : ℚ, evaluate_threshold ">=15% RDI" [("vitamin_c_rdi_percent", some v)]
        "vitamin_c" none = decide (15 ≤ v))
    ∧ (∀ v : ℚ, evaluate_threshold ">15% RDI" [("vitamin_c_rdi_percent", some v)]
        "vitamin_c" none = decide (15 < v))
    ∧ (∀ v : ℚ, evaluate_threshold "<=15% RDI" [("vitamin_c_rdi_percent", some v)]
        "vitamin_c" none = decide (v ≤ 15))
    ∧ (∀ v : ℚ, evaluate_threshold "<15% RDI" [("vitamin_c_rdi_percent", some v)]
        "vitamin_c" none = decide (v < 15))
    ∧ (∀ v : ℚ, evaluate_threshold "≥15% RDI" [("vitamin_c_rdi_percent", some v)]
        "vitamin_c" none = decide (15 ≤ v))
    ∧ (∀ v : ℚ, evaluate_threshold "≤15% RDI" [("vitamin_c_rdi_percent", some v)]
        "vitamin_c" none = decide (v ≤ 15))
    ∧ evaluate_threshold ">=15% RDI" [("vitamin_c_rdi_percent", some 15)]
        "vitamin_c" none = true
    ∧ evaluate_threshold ">=15% RDI" [("vitamin_c_rdi_percent", some (149/10))]
        "vitamin_c" none = false
    ∧ (∀ nkey : String, evaluate_threshold ">=10% RDI" [] nkey none = false) := by
  refine ⟨?_, ?_, ?_, ?_, ?_, ?_, ?_, ?_, ?_⟩
  · intro v
    unfold evaluate_threshold
    rw [evalThreshold_rdi_branch _ _ _ _ _ '>' true 15 (by decide) (by decide),
      show dget [("vitamin_c_rdi_percent", some v)] ("vitamin_c" ++ "_rdi_percent") = some v from rfl]
    rfl
  · intro v
    unfold evaluate_threshold
    rw [evalThreshold_rdi_branch _ _ _ _ _ '>' false 15 (by decide) (by decide),
      show dget [("vitamin_c_rdi_percent", some v)] ("vitamin_c" ++ "_rdi_percent") = some v from rfl]
    rfl
  · intro v
    unfold evaluate_threshold
    rw [evalThreshold_rdi_branch _ _ _ _ _ '<' true 15 (by decide) (by decide),
      show dget [("vitamin_c_rdi_percent", some v)] ("vitamin_c" ++ "_rdi_percent") = some v from rfl]
    rfl
  · intro v
    unfold evaluate_threshold
    rw [evalThreshold_rdi_branch _ _ _ _ _ '<' false 15 (by decide) (by decide),
      show dget [("vitamin_c_rdi_percent", some v)] ("vitamin_c" ++ "_rdi_percent") = some v from rfl]
    rfl
  · intro v
    unfold evaluate_threshold
    rw [evalThreshold_rdi_branch _ _ _ _ _ '≥' false 15 (by decide) (by decide),
      show dget [("vitamin_c_rdi_percent", some v)] ("vitamin_c" ++ "_rdi_percent") = some v from rfl]
    rfl
  · intro v
    unfold evaluate_threshold
    rw [evalThreshold_rdi_branch _ _ _ _ _ '≤' false 15 (by decide) (by decide),
      show dget [("vitamin_c_rdi_percent", some v)] ("vitamin_c" ++ "_rdi_percent") = some v from rfl]
    rfl
  · decide
  · have h : (149 : ℚ)/10 = Rat.divInt 149 10 := by
      rw [Rat.divInt_eq_div]
      norm_num
    rw [h]
    decide
  · intro nkey
    unfold evaluate_threshold
    rw [evalThreshold_rdi_branch _ _ _ _ _ '>' true 10 (by decide) (by decide),
      show dget [] (nkey ++ "_rdi_percent") = none from rfl]

/-! ## C7: หรือ/และ composition -/

theorem list_any_congr {α : Type} {f g : α → Bool} :
    ∀ (l : List α), (∀ a ∈ l, f a = g a) → l.any f = l.any g
  | [], _ => rfl
  | a :: l, h => by
    simp only [List.any_cons]
    rw [h a (List.mem_cons_self a l), list_any_congr l (fun b hb => h b (List.mem_cons_of_mem a hb))]

theorem list_all_congr {α : Type} {f g : α → Bool} :
    ∀ (l : List α), (∀ a ∈ l, f a = g a) → l.all f = l.all g
  | [], _ => rfl
  | a :: l, h => by
    simp only [List.all_cons]
    rw [h a (List.mem_cons_self a l), list_all_congr l (fun b hb => h b (List.mem_cons_of_mem a hb))]

/-- On an expression with neither split word, `evalThreshold` never recurses,
so its value does not depend on the (positive) fuel. -/
theorem evalThreshold_fuel_invariant (f g : ℕ) (tstr : String) (values : ValuesDict)
    (nkey : String) (label : Option ValuesDict)
    (h1 : subOccurs "หรือ".toList tstr.toList = false)
    (h2 : subOccurs "และ".toList tstr.toList = false) :
    evalThreshold (f+1) tstr values nkey label = evalThreshold (g+1) tstr values nkey label := by
  simp only [evalThreshold, h1, h2, Bool.false_eq_true, if_false]

/-- Each field of `splitOnGo` is no longer than the worked prefix plus the
remaining input; the skip counter only shortens what a field can take. -/
theorem splitOnGo_piece_le (sep : List Char) :
    ∀ (l : List Char) (k : ℕ) (acc p : List Char),
      p ∈ splitOnGo sep l k acc → p.length + min k l.length ≤ acc.length + l.length
  | [], k, acc, p => by
    intro hp
    simp only [splitOnGo, List.mem_singleton] at hp
    subst hp
    rw [List.length_reverse]
    simp only [List.length_nil]
    omega
  | c :: rest, k+1, acc, p => by
    intro hp
    simp only [splitOnGo] at hp
    have := splitOnGo_piece_le sep rest k acc p hp
    simp only [List.length_cons]
    omega
  | c :: rest, 0, acc, p => by
    intro hp
    simp only [splitOnGo] at hp
    by_cases hpre : sep.isPrefixOf (c :: rest) = true
    · rw [if_pos hpre] at hp
      rcases List.mem_cons.mp hp with hp | hp
      · subst hp
        rw [List.length_reverse]
        simp only [List.length_cons]
        omega
      · have := splitOnGo_piece_le sep rest (sep.length - 1) [] p hp
        simp only [List.length_nil, List.length_cons] at this ⊢
        omega
    · rw [if_neg hpre] at hp
      have := splitOnGo_piece_le sep rest 0 (c :: acc) p hp
      simp only [List.length_cons] at this ⊢
      omega

/-- When the separator does occur, every field of the split is at least
`sep.length` characters shorter than the input. -/
theorem splitOn_piece_bound (sep : List Char) (hsep : sep ≠ []) :
    ∀ (l acc p : List Char), subOccurs sep l = true →
      p ∈ splitOnGo sep l 0 acc → p.length + sep.length ≤ acc.length + l.length
  | [], acc, p => by
    intro hocc
    simp only [subOccurs, List.isEmpty_iff] at hocc
    exact absurd hocc hsep
  | c :: rest, acc, p => by
    intro hocc hp
    have hs1 : 1 ≤ sep.length := List.length_pos.mpr hsep
    simp only [splitOnGo] at hp
    by_cases hpre : sep.isPrefixOf (c :: rest) = true
    · rw [if_pos hpre] at hp
      have hsl : sep.length ≤ rest.length + 1 := by
        have h := (List.isPrefixOf_iff_prefix.mp hpre).length_le
        simpa using h
      rcases List.mem_cons.mp hp with hp | hp
      · subst hp
        rw [List.length_reverse]
        simp only [List.length_cons]
        omega
      · have := splitOnGo_piece_le sep rest (sep.length - 1) [] p hp
        simp only [List.length_nil, List.length_cons] at this ⊢
        omega
    · rw [if_neg hpre] at hp
      have hocc' : subOccurs sep rest = true := by
        simp only [subOccurs, Bool.or_eq_true] at hocc
        rcases hocc with h | h
        · exact absurd h hpre
        · exact h
      have := splitOn_piece_bound sep hsep rest (c :: acc) p hocc' hp
      simp only [List.length_cons] at this ⊢
      omega

theorem trimL_length_le (l : List Char) : (trimL l).length ≤ l.length := by
  unfold trimL
  have h1 := (List.dropWhile_sublist (l := l) Char.isWhitespace).length_le
  have h2 := (List.dropWhile_sublist (l := (l.dropWhile Char.isWhitespace).reverse)
    Char.isWhitespace).length_le
  simp only [List.length_reverse] at h1 h2 ⊢
  omega

/-- The part of an `evalThreshold` step after the `raw_` branch, with the
recursive evaluator abstracted. -/
def evalRest (rec : String → Bool) (t : List Char) (values : ValuesDict)
    (nkey : String) : Bool :=
  match rdiSearch (trimL t) with
  | some (b, e, q) =>
    (match dget values (nkey ++ "_rdi_percent") with
     | none => false
     | some v => (evalOp b e v q).getD false)
  | none =>
    match simpleMatch (trimL t) with
    | some (b, e, q) =>
      (match dget values nkey with
       | none => false
       | some v => (evalOp b e v q).getD false)
    | none =>
      if subOccurs "หรือ".toList t then
        (splitOnL "หรือ".toList t).any (fun p => rec (String.mk (trimL p)))
      else if subOccurs "และ".toList t then
        (splitOnL "และ".toList t).all (fun p => rec (String.mk (trimL p)))
      else
        match genSearch false false [] t with
        | some (pre, b, e, q) =>
          (match dget values (normalize_nutrient_key (String.mk (trimL pre))) with
           | none => false
           | some v => (evalOp b e v q).getD false)
        | none => false

theorem evalThreshold_succ (fuel : ℕ) (tstr : String) (values : ValuesDict)
    (nkey : String) (label : Option ValuesDict) :
    evalThreshold (fuel+1) tstr values nkey label
      = match rawMatch tstr.toList, label with
        | some (nm, b, e, q), some lv =>
          (match dget lv nm with
           | none => true
           | some v => (evalOp b e v q).getD false)
        | _, _ =>
          evalRest (fun s => evalThreshold fuel s values nkey label)
            tstr.toList values nkey := rfl

theorem evalRest_congr (rec1 rec2 : String → Bool) (t : List Char)
    (values : ValuesDict) (nkey : String)
    (h : subOccurs "หรือ".toList t = true →
      ∀ p ∈ splitOnL "หรือ".toList t,
        rec1 (String.mk (trimL p)) = rec2 (String.mk (trimL p)))
    (h2 : subOccurs "หรือ".toList t = false → subOccurs "และ".toList t = true →
      ∀ p ∈ splitOnL "และ".toList t,
        rec1 (String.mk (trimL p)) = rec2 (String.mk (trimL p))) :
    evalRest rec1 t values nkey = evalRest rec2 t values nkey := by
  unfold evalRest
  cases rdiSearch (trimL t) with
  | some r =>
    obtain ⟨b, e, q⟩ := r
    rfl
  | none =>
    cases simpleMatch (trimL t) with
    | some r =>
      obtain ⟨b, e, q⟩ := r
      rfl
    | none =>
      by_cases hor : subOccurs "หรือ".toList t = true
      · rw [if_pos hor, if_pos hor]
        exact list_any_congr _ (h hor)
      · have hor' : subOccurs "หรือ".toList t = false := by
          revert hor
          cases subOccurs "หรือ".toList t <;> simp
        rw [if_neg hor, if_neg hor]
        by_cases hand : subOccurs "และ".toList t = true
        · rw [if_pos hand, if_pos hand]
          exact list_all_congr _ (h2 hor' hand)
        · rw [if_neg hand, if_neg hand]

/-- Above the recursion's actual depth, the fuel does not matter: any fuel of
at least `length + 1` computes the same value as `evaluate_threshold`'s. -/
theorem evalThreshold_fuel_ge :
    ∀ (fuel : ℕ) (tstr : String) (values : ValuesDict) (nkey : String)
      (label : Option ValuesDict), tstr.toList.length + 1 ≤ fuel →
      evalThreshold fuel tstr values nkey label
        = evalThreshold (tstr.toList.length + 1) tstr values nkey label := by
  intro fuel
  induction fuel using Nat.strong_induction_on with
  | _ fuel ih =>
  intro tstr values nkey label hle
  obtain ⟨f, rfl⟩ : ∃ f, fuel = f + 1 := ⟨fuel - 1, by omega⟩
  have hlen : tstr.toList.length ≤ f := by omega
  rw [evalThreshold_succ f, evalThreshold_succ tstr.toList.length]
  have hrest : evalRest (fun s => evalThreshold f s values nkey label)
        tstr.toList values nkey
      = evalRest (fun s => evalThreshold tstr.toList.length s values nkey label)
        tstr.toList values nkey := by
    apply evalRest_congr
    · intro hor p hp
      have hb := splitOn_piece_bound "หรือ".toList (by decide) tstr.toList [] p hor hp
      have h4 : ("หรือ".toList).length = 4 := by decide
      have htr := trimL_length_le p
      have hfit : (String.mk (trimL p)).toList.length + 1 ≤ tstr.toList.length := by
        show (trimL p).length + 1 ≤ tstr.toList.length
        simp only [List.length_nil, h4] at hb
        omega
      rw [ih f (by omega) (String.mk (trimL p)) values nkey label (by omega),
        ih tstr.toList.length (by omega) (String.mk (trimL p)) values nkey label hfit]
    · intro _ hand p hp
      have hb := splitOn_piece_bound "และ".toList (by decide) tstr.toList [] p hand hp
      have h3 : ("และ".toList).length = 3 := by decide
      have htr := trimL_length_le p
      have hfit : (String.mk (trimL p)).toList.length + 1 ≤ tstr.toList.length := by
        show (trimL p).length + 1 ≤ tstr.toList.length
        simp only [List.length_nil, h3] at hb
        omega
      rw [ih f (by omega) (String.mk (trimL p)) values nkey label (by omega),
        ih tstr.toList.length (by omega) (String.mk (trimL p)) values nkey label hfit]
  cases hraw : rawMatch tstr.toList with
  | some r =>
    obtain ⟨nm, b, e, q⟩ := r
    cases label with
    | some lv => rfl
    | none => exact hrest
  | none =>
    cases label with
    | some lv => exact hrest
    | none => exact hrest

/-- On an expression that no earlier pattern claims, an `หรือ` occurrence
splits it and the stripped pieces are composed with OR, each evaluated by a
full recursive `evaluate_threshold` call. -/
theorem evaluate_threshold_or_split (tstr : String) (values : ValuesDict)
    (nkey : String) (label : Option ValuesDict)
    (hraw : rawMatch tstr.toList = none)
    (hrdi : rdiSearch (trimL tstr.toList) = none)
    (hsimple : simpleMatch (trimL tstr.toList) = none)
    (hor : subOccurs "หรือ".toList tstr.toList = true) :
    evaluate_threshold tstr values nkey label
      = (splitOnL "หรือ".toList tstr.toList).any
          (fun p => evaluate_threshold (String.mk (trimL p)) values nkey label) := by
  unfold evaluate_threshold
  rw [evalThreshold_or_branch _ _ _ _ _ hraw hrdi hsimple hor]
  apply list_any_congr
  intro p hp
  have hb := splitOn_piece_bound "หรือ".toList (by decide) tstr.toList [] p hor hp
  have h4 : ("หรือ".toList).length = 4 := by decide
  have htr := trimL_length_le p
  have hfit : (String.mk (trimL p)).toList.length + 1 ≤ tstr.toList.length := by
    show (trimL p).length + 1 ≤ tstr.toList.length
    simp only [List.length_nil, h4] at hb
    omega
  exact evalThreshold_fuel_ge tstr.toList.length (String.mk (trimL p)) values nkey label hfit

/-- On an expression that no earlier pattern claims and with no `หรือ`, an
`และ` occurrence splits it and the stripped pieces are composed with AND. -/
theorem evaluate_threshold_and_split (tstr : String) (values : ValuesDict)
    (nkey : String) (label : Option ValuesDict)
    (hraw : rawMatch tstr.toList = none)
    (hrdi : rdiSearch (trimL tstr.toList) = none)
    (hsimple : simpleMatch (trimL tstr.toList) = none)
    (hor : subOccurs "หรือ".toList tstr.toList = false)
    (hand : subOccurs "และ".toList tstr.toList = true) :
    evaluate_threshold tstr values nkey label
      = (splitOnL "และ".toList tstr.toList).all
          (fun p => evaluate_threshold (String.mk (trimL p)) values nkey label) := by
  unfold evaluate_threshold
  rw [evalThreshold_and_branch _ _ _ _ _ hraw hrdi hsimple hor hand]
  apply list_all_congr
  intro p hp
  have hb := splitOn_piece_bound "และ".toList (by decide) tstr.toList [] p hand hp
  have h3 : ("และ".toList).length = 3 := by decide
  have htr := trimL_length_le p
  have hfit : (String.mk (trimL p)).toList.length + 1 ≤ tstr.toList.length := by
    show (trimL p).length + 1 ≤ tstr.toList.length
    simp only [List.length_nil, h3] at hb
    omega
  exact evalThreshold_fuel_ge tstr.toList.length (String.mk (trimL p)) values nkey label hfit

/-- C7 counterexample: `">=100 หรือ >=1"` contains `หรือ` and splits into
`">=100"` and `">=1"`, whose second piece evaluates true at `fiber = 2`, yet
`evaluate_threshold` returns false: the leading-operator pattern matches
first and only compares against 100, so the claimed OR semantics for every
expression containing `หรือ` fails at this input. -/
theorem C7_or_counterexample :
    subOccurs "หรือ".toList ">=100 หรือ >=1".toList = true
    ∧ (splitOnL "หรือ".toList ">=100 หรือ >=1".toList).map (fun p => String.mk (trimL p))
        = [">=100", ">=1"]
    ∧ evaluate_threshold ">=1" [("fiber", some 2)] "fiber" none = true
    ∧ evaluate_threshold ">=100 หรือ >=1" [("fiber", some 2)] "fiber" none = false :=
  ⟨by decide, by decide, by decide, by decide⟩

/-- C7 (amended): the `หรือ`/`และ` splits apply only to expressions that no
earlier pattern claims (no `raw_` match, no `%RDI` comparison, no leading
comparison operator); on every such expression, `หรือ` composes the stripped
pieces with OR, and, when `หรือ` is absent, `และ` composes them with AND,
each piece evaluated by a full recursive `evaluate_threshold` call (so
nested `และ` inside an `หรือ` piece is handled by the piece's own split).
The spec's two instances hold with arbitrary supplied values. -/
theorem C7_or_and_composition :
    (∀ fib : ℚ, evaluate_threshold "fiber>=3 หรือ fiber>=1.5" [("fiber", some fib)]
        "fiber" none = (decide (3 ≤ fib) || decide (3/2 ≤ fib)))
    ∧ (∀ fib sug : ℚ, evaluate_threshold "fiber>=3 และ sugar<=5"
        [("fiber", some fib), ("sugar", some sug)] "fiber" none
        = (decide (3 ≤ fib) && decide (sug ≤ 5)))
    ∧ (∀ (tstr : String) (values : ValuesDict) (nkey : String) (label : Option ValuesDict),
        rawMatch tstr.toList = none →
        rdiSearch (trimL tstr.toList) = none →
        simpleMatch (trimL tstr.toList) = none →
        subOccurs "หรือ".toList tstr.toList = true →
        evaluate_threshold tstr values nkey label
          = (splitOnL "หรือ".toList tstr.toList).any
              (fun p => evaluate_threshold (String.mk (trimL p)) values nkey label))
    ∧ (∀ (tstr : String) (values : ValuesDict) (nkey : String) (label : Option ValuesDict),
        rawMatch tstr.toList = none →
        rdiSearch (trimL tstr.toList) = none →
        simpleMatch (trimL tstr.toList) = none →
        subOccurs "หรือ".toList tstr.toList = false →
        subOccurs "และ".toList tstr.toList = true →
        evaluate_threshold tstr values nkey label
          = (splitOnL "และ".toList tstr.toList).all
              (fun p => evaluate_threshold (String.mk (trimL p)) values nkey label)) := by
  refine ⟨?_, ?_, ?_, ?_⟩
  · intro fib
    unfold evaluate_threshold
    rw [evalThreshold_or_branch _ _ _ _ _ (by decide) (by decide) (by decide) (by decide),
      show splitOnL "หรือ".toList "fiber>=3 หรือ fiber>=1.5".toList
        = ["fiber>=3 ".toList, " fiber>=1.5".toList] from by decide]
    simp only [List.any_cons, List.any_nil, Bool.or_false]
    rw [show ("fiber>=3 หรือ fiber>=1.5".toList.length) = 23 + 1 from by decide]
    rw [evalThreshold_gen_branch 23 (String.mk (trimL "fiber>=3 ".toList)) _ _ _
      "fiber".toList '>' true 3 (by decide) (by decide) (by decide) (by decide) (by decide)
      (by decide)]
    rw [evalThreshold_gen_branch 23 (String.mk (trimL " fiber>=1.5".toList)) _ _ _
      "fiber".toList '>' true (Rat.divInt 15 10) (by decide) (by decide) (by decide)
      (by decide) (by decide) (by decide)]
    rw [show normalize_nutrient_key (String.mk (trimL "fiber".toList)) = "fiber" from by decide,
      show dget [("fiber", some fib)] "fiber" = some fib from rfl,
      show (Rat.divInt 15 10 : ℚ) = 3/2 from by rw [Rat.divInt_eq_div]; norm_num]
    rfl
  · intro fib sug
    unfold evaluate_threshold
    rw [evalThreshold_and_branch _ _ _ _ _ (by decide) (by decide) (by decide) (by decide)
      (by decide),
      show splitOnL "และ".toList "fiber>=3 และ sugar<=5".toList
        = ["fiber>=3 ".toList, " sugar<=5".toList] from by decide]
    simp only [List.all_cons, List.all_nil, Bool.and_true]
    rw [show ("fiber>=3 และ sugar<=5".toList.length) = 20 + 1 from by decide]
    rw [evalThreshold_gen_branch 20 (String.mk (trimL "fiber>=3 ".toList)) _ _ _
      "fiber".toList '>' true 3 (by decide) (by decide) (by decide) (by decide) (by decide)
      (by decide)]
    rw [evalThreshold_gen_branch 20 (String.mk (trimL " sugar<=5".toList)) _ _ _
      "sugar".toList '<' true 5 (by decide) (by decide) (by decide) (by decide) (by decide)
      (by decide)]
    rw [show normalize_nutrient_key (String.mk (trimL "fiber".toList)) = "fiber" from by decide,
      show normalize_nutrient_key (String.mk (trimL "sugar".toList)) = "sugar" from by decide,
      show dget [("fiber", some fib), ("sugar", some sug)] "fiber" = some fib from rfl,
      show dget [("fiber", some fib), ("sugar", some sug)] "sugar" = some sug from rfl]
    rfl
  · exact fun tstr values nkey label => evaluate_threshold_or_split tstr values nkey label
  · exact fun tstr values nkey label => evaluate_threshold_and_split tstr values nkey label

theorem C7_or_and_composition_witness :
    (evaluate_threshold "fiber>=4 หรือ sodium<=3 และ fat<=5" [("fiber", some 2)] "fiber" none
      = (splitOnL "หรือ".toList "fiber>=4 หรือ sodium<=3 และ fat<=5".toList).any
          (fun p => evaluate_threshold (String.mk (trimL p)) [("fiber", some 2)] "fiber" none))
    ∧ (evaluate_threshold "fiber>=3 และ sugar<=5" [("sugar", some 1)] "fiber" none
      = (splitOnL "และ".toList "fiber>=3 และ sugar<=5".toList).all
          (fun p => evaluate_threshold (String.mk (trimL p)) [("sugar", some 1)] "fiber" none)) :=
  ⟨C7_or_and_composition.2.2.1 "fiber>=4 หรือ sodium<=3 และ fat<=5" [("fiber", some 2)]
      "fiber" none (by decide) (by decide) (by decide) (by decide),
   C7_or_and_composition.2.2.2 "fiber>=3 และ sugar<=5" [("sugar", some 1)] "fiber" none
      (by decide) (by decide) (by decide) (by decide) (by decide)⟩


/-! ## C2: dual-basis AND for list-2 foods -/

theorem postSugarVeto_true {nkey ct mA adjusted labelValues r}
    (h : postSugarVeto nkey ct mA adjusted labelValues r = true) : r = true := by
  unfold postSugarVeto at h
  split_ifs at h <;> simp_all

theorem postSugarVeto_false {nkey ct mA adjusted labelValues r} (h : r = false) :
    postSugarVeto nkey ct mA adjusted labelValues r = false := by
  unfold postSugarVeto
  split_ifs <;> simp_all

theorem postSpecialRule_false {inList2 sp gs gu adjusted labelValues nvs r} (h : r = false) :
    postSpecialRule inList2 sp gs gu adjusted labelValues nvs r = false := by
  unfold postSpecialRule
  rcases sp with _ | s
  · exact h
  · split_ifs <;> simp_all

theorem postSpecialRule_true {inList2 sp gs gu adjusted labelValues nvs r}
    (h : postSpecialRule inList2 sp gs gu adjusted labelValues nvs r = true) : r = true := by
  by_contra hr
  rw [postSpecialRule_false (by revert hr; cases r <;> simp)] at h
  simp at h

theorem postFiberVeto_true {inList2 fs ct thr t100 nkey adjusted r}
    (h : postFiberVeto inList2 fs ct thr t100 nkey adjusted r = true) : r = true := by
  unfold postFiberVeto at h
  split_ifs at h <;> simp_all

theorem postFiberVeto_false {inList2 fs ct thr t100 nkey adjusted r} (h : r = false) :
    postFiberVeto inList2 fs ct thr t100 nkey adjusted r = false := by
  unfold postFiberVeto
  split_ifs <;> simp_all

/-- C2: for a food under a reference-serving spec (list 2) with label values
supplied and the rule's nutrient value present, the overall rule result
passes only if both the reference-serving (adjusted) evaluation and the
label-serving evaluation pass; whenever the two evaluations disagree the
rule fails.  (The later sugar-free, special-rule and fiber vetoes can only
turn a pass into a fail, so they preserve both directions.) -/
theorem C2_dual_basis_and (mA : Bool) (fs nutrient ct thr t100 trdi trdi100 : String)
    (sat : Bool) (sp : Option String) (gs : ℚ) (gu : String)
    (adjusted labelValues nvs : ValuesDict) (rdiOf : String → Option ℚ)
    (hlab : labelValues ≠ [])
    (hsup : dget adjusted (normalize_nutrient_key nutrient) ≠ none) :
    (claimRuleResult true mA fs nutrient ct thr t100 trdi trdi100 sat sp gs gu
        adjusted labelValues nvs rdiOf = some true
      → adjustedResultDef true fs ct thr t100 trdi trdi100 sat
          (normalize_nutrient_key nutrient) adjusted = true
        ∧ labelResultDef true thr trdi sat (normalize_nutrient_key nutrient) labelValues
            rdiOf = true)
    ∧ (adjustedResultDef true fs ct thr t100 trdi trdi100 sat
          (normalize_nutrient_key nutrient) adjusted
        ≠ labelResultDef true thr trdi sat (normalize_nutrient_key nutrient) labelValues rdiOf
      → claimRuleResult true mA fs nutrient ct thr t100 trdi trdi100 sat sp gs gu
          adjusted labelValues nvs rdiOf = some false) := by
  cases ho : dget adjusted (normalize_nutrient_key nutrient) with
  | none => exact absurd ho hsup
  | some w =>
    have hval : claimRuleResult true mA fs nutrient ct thr t100 trdi trdi100 sat sp gs gu
        adjusted labelValues nvs rdiOf
        = some (postFiberVeto true fs ct thr t100 (normalize_nutrient_key nutrient) adjusted
            (postSpecialRule true sp gs gu adjusted labelValues nvs
              (postSugarVeto (normalize_nutrient_key nutrient) ct mA adjusted labelValues
                (adjustedResultDef true fs ct thr t100 trdi trdi100 sat
                    (normalize_nutrient_key nutrient) adjusted
                  && labelResultDef true thr trdi sat (normalize_nutrient_key nutrient)
                      labelValues rdiOf)))) := by
      unfold claimRuleResult
      rw [ho, if_pos ⟨rfl, hlab⟩]
    rw [hval]
    constructor
    · intro h
      injection h with h
      have h2 := postSugarVeto_true (postSpecialRule_true (postFiberVeto_true h))
      exact ⟨((Bool.and_eq_true _ _).mp h2).1, ((Bool.and_eq_true _ _).mp h2).2⟩
    · intro hne
      have hAB : (adjustedResultDef true fs ct thr t100 trdi trdi100 sat
            (normalize_nutrient_key nutrient) adjusted
          && labelResultDef true thr trdi sat (normalize_nutrient_key nutrient) labelValues
              rdiOf) = false := by
        cases hA : adjustedResultDef true fs ct thr t100 trdi trdi100 sat
            (normalize_nutrient_key nutrient) adjusted
          <;> cases hB : labelResultDef true thr trdi sat (normalize_nutrient_key nutrient)
            labelValues rdiOf <;> simp_all
      rw [hAB, postFiberVeto_false (postSpecialRule_false (postSugarVeto_false rfl))]

theorem C2_dual_basis_and_witness :
    (claimRuleResult true false "solid" "sugar" "x" "<=0.5" "nan" "nan" "nan" false none 30
        "กรัม" [("sugar", some 1)] [("sugar", some 0)] [] (fun _ => none) = some true
      → adjustedResultDef true "solid" "x" "<=0.5" "nan" "nan" "nan" false
          (normalize_nutrient_key "sugar") [("sugar", some 1)] = true
        ∧ labelResultDef true "<=0.5" "nan" false (normalize_nutrient_key "sugar")
            [("sugar", some 0)] (fun _ => none) = true)
    ∧ (adjustedResultDef true "solid" "x" "<=0.5" "nan" "nan" "nan" false
          (normalize_nutrient_key "sugar") [("sugar", some 1)]
        ≠ labelResultDef true "<=0.5" "nan" false (normalize_nutrient_key "sugar")
            [("sugar", some 0)] (fun _ => none)
      → claimRuleResult true false "solid" "sugar" "x" "<=0.5" "nan" "nan" "nan" false none 30
          "กรัม" [("sugar", some 1)] [("sugar", some 0)] [] (fun _ => none) = some false) :=
  C2_dual_basis_and false "solid" "sugar" "x" "<=0.5" "nan" "nan" "nan" false none 30 "กรัม"
    [("sugar", some 1)] [("sugar", some 0)] [] (fun _ => none) (by decide) (by decide)

theorem dget_cons_self (k : String) (v : Option ℚ) (rest : ValuesDict) :
    dget ((k, v) :: rest) k = v := by
  unfold dget
  rw [List.find?_cons_of_pos _ (by simp)]

/-! ## C5: per-100kcal OR for protein outside list 2 -/

/-- C5: outside list 2, a protein rule with a per-100kcal threshold passes
when the per-100g/ml evaluation fails but the per-100kcal evaluation passes
(OR semantics); and `calculate_per_100kcal` stores exactly the rounded
`protein * 100 / energy` under `protein_per_100kcal` whenever energy is
positive. -/
theorem C5_per_100kcal_or (mA : Bool) (fs ct thr t100 : String) (gs : ℚ) (gu : String)
    (adjusted labelValues nvs : ValuesDict) (rdiOf : String → Option ℚ) (p100v : ℚ)
    (hsup : dget adjusted "protein" ≠ none)
    (hthr : thr ≠ "nan") (ht100 : t100 ≠ "nan")
    (hkey : hasKey adjusted ("protein" ++ "_per_100kcal") = true)
    (hval : dget adjusted ("protein" ++ "_per_100kcal") = some p100v)
    (hfail : evaluate_threshold thr adjusted "protein" none = false)
    (hpass : evaluate_threshold t100 [("protein", some p100v)] "protein" none = true) :
    claimRuleResult false mA fs "protein" ct thr t100 "nan" "nan" false none gs gu
        adjusted labelValues nvs rdiOf = some true
    ∧ (∀ (nv : ValuesDict) (e p : ℚ), dget nv "protein" = some p → 0 < e →
        dget (calculate_per_100kcal nv (some e)) ("protein" ++ "_per_100kcal")
          = some (round_nutrition_value (p * (100 / e)) "protein" 2)) := by
  constructor
  · have hbase : thresholdBase false fs ct thr t100 "protein" adjusted = true := by
      unfold thresholdBase
      rw [if_neg hthr, if_pos ⟨rfl, ht100, Or.inl rfl⟩, if_pos hkey, if_neg (by simp), hval]
      unfold thresholdPrimary
      rw [if_neg (by simp), hfail, hpass]
      rfl
    have hfib : fiberList2Override false fs ct "protein" adjusted true = true := by
      unfold fiberList2Override
      rw [if_neg (by simp)]
    have hrdi : rdiFactor false "nan" "nan" "protein" adjusted = true := by
      unfold rdiFactor
      rw [if_neg (by simp)]
      unfold rdiBase
      rw [if_neg (by simp)]
    have hadj : adjustedResultDef false fs ct thr t100 "nan" "nan" false "protein" adjusted
        = true := by
      unfold adjustedResultDef
      rw [hbase, hfib, hrdi]
      unfold satVeto
      rw [if_neg (by simp)]
      rfl
    unfold claimRuleResult
    rw [show normalize_nutrient_key "protein" = "protein" from by decide]
    cases ho : dget adjusted "protein" with
    | none => exact absurd ho hsup
    | some w =>
      rw [if_neg (by simp), hadj]
      have hsugar : postSugarVeto "protein" ct mA adjusted labelValues true = true := by
        unfold postSugarVeto
        rw [if_neg (by simp)]
      rw [hsugar]
      have hpost : postSpecialRule false none gs gu adjusted labelValues nvs true = true := rfl
      rw [hpost]
      have hfv : postFiberVeto false fs ct thr t100 "protein" adjusted true = true := by
        unfold postFiberVeto
        rw [if_neg (by rintro ⟨_, h, _⟩; exact hthr h)]
      rw [hfv]
  · intro nv e p hp he
    simp only [calculate_per_100kcal]
    rw [if_neg (not_le.mpr he)]
    cases hq : dget nv "fiber" <;>
      simp only [List.filterMap, hp, hq] <;> rw [dget_cons_self]

theorem C5_per_100kcal_or_witness :
    claimRuleResult false false "solid" "protein" "x" ">=10" ">=10" "nan" "nan" false none 0 ""
        [("protein", some 6), ("energy", some 50), ("protein_per_100kcal", some 12)] [] []
        (fun _ => none) = some true
    ∧ (∀ (nv : ValuesDict) (e p : ℚ), dget nv "protein" = some p → 0 < e →
        dget (calculate_per_100kcal nv (some e)) ("protein" ++ "_per_100kcal")
          = some (round_nutrition_value (p * (100 / e)) "protein" 2)) :=
  C5_per_100kcal_or false "solid" "x" ">=10" ">=10" 0 ""
    [("protein", some 6), ("energy", some 50), ("protein_per_100kcal", some 12)] [] []
    (fun _ => none) 12 (by decide) (by decide) (by decide) (by decide) (by decide) (by decide)
    (by decide)

/-! ## C8: sugar-free dual-rounding requirement -/

/-- C8: under the per-100g/ml analysis method, a sugar claim whose text
contains "ปราศจาก" fails whenever the (rounded) label-serving and
reference-serving sugar values are not both exactly 0 — whatever the rest of
the evaluation said; and in the spec's scenario (raw sugar 0.4 g/100 g,
serving 25 g, reference 30 g not manual, hence doubled to 60 g) the label
value is 0.1 g and the reference value 0.24 g, both of which round to 0, so
a sugar-free claim with threshold `<=0.5` passes. -/
theorem C8_sugar_free_dual_rounding (inL2 : Bool) (fs ct thr t100 trdi trdi100 : String)
    (sat : Bool) (sp : Option String) (gs : ℚ) (gu : String)
    (adjusted labelValues nvs : ValuesDict) (rdiOf : String → Option ℚ)
    (hct : subOccurs "ปราศจาก".toList ct.toList = true)
    (hsup : dget adjusted "sugar" ≠ none)
    (hnot : ¬(dget labelValues "sugar" = some 0 ∧ dget adjusted "sugar" = some 0)) :
    claimRuleResult inL2 true fs "sugar" ct thr t100 trdi trdi100 sat sp gs gu
        adjusted labelValues nvs rdiOf = some false
    ∧ (2/5 : ℚ) * (25/100) = 1/10
    ∧ round_nutrition_value (1/10) "sugar" 2 = 0
    ∧ (2/5 : ℚ) * (25/100 * (2*30)/25) = 6/25
    ∧ round_nutrition_value (6/25) "sugar" 2 = 0
    ∧ adjust_per_100_to_serving [("sugar", some (2/5))] 25 30 false = [("sugar", some 0)]
    ∧ claimRuleResult true true "solid" "sugar" "ปราศจากน้ำตาล" "<=0.5" "nan" "nan" "nan"
        false none 30 "กรัม" [("sugar", some 0)] [("sugar", some 0)] [] (fun _ => none)
        = some true := by
  have hround : round_nutrition_value (6/25) "sugar" 2 = 0 := by
    unfold round_nutrition_value
    rw [if_neg (by decide), if_neg (by decide), if_neg (by decide), if_neg (by decide),
      if_pos (by decide)]
    norm_num
  refine ⟨?_, by norm_num, ?_, by norm_num, hround, ?_, by decide⟩
  · unfold claimRuleResult
    rw [show normalize_nutrient_key "sugar" = "sugar" from by decide]
    cases ho : dget adjusted "sugar" with
    | none => exact absurd ho hsup
    | some w =>
      have h1 : ∀ r : Bool, postSugarVeto "sugar" ct true adjusted labelValues r = false := by
        intro r
        unfold postSugarVeto
        rw [if_pos ⟨rfl, hct, rfl⟩, if_neg hnot]
      rw [h1, postSpecialRule_false rfl, postFiberVeto_false rfl]
  · unfold round_nutrition_value
    rw [if_neg (by decide), if_neg (by decide), if_neg (by decide), if_neg (by decide),
      if_pos (by decide)]
    norm_num
  · rw [adjust_per_100_eq_map _ _ _ _ (by norm_num) (by norm_num)]
    simp only [List.map_cons, List.map_nil, Option.map]
    have h1 : (2/5 : ℚ) * (effective_reference 30 false / 100) = 6/25 := by
      norm_num [effective_reference]
    rw [h1, hround]

theorem C8_sugar_free_dual_rounding_witness :
    claimRuleResult true true "solid" "sugar" "ปราศจากน้ำตาล" "<=0.5" "nan" "nan" "nan" false
        none 30 "กรัม" [("sugar", some 0)] [("sugar", some 1)] [] (fun _ => none) = some false
    ∧ (2/5 : ℚ) * (25/100) = 1/10
    ∧ round_nutrition_value (1/10) "sugar" 2 = 0
    ∧ (2/5 : ℚ) * (25/100 * (2*30)/25) = 6/25
    ∧ round_nutrition_value (6/25) "sugar" 2 = 0
    ∧ adjust_per_100_to_serving [("sugar", some (2/5))] 25 30 false = [("sugar", some 0)]
    ∧ claimRuleResult true true "solid" "sugar" "ปราศจากน้ำตาล" "<=0.5" "nan" "nan" "nan"
        false none 30 "กรัม" [("sugar", some 0)] [("sugar", some 0)] [] (fun _ => none)
        = some true :=
  C8_sugar_free_dual_rounding true "solid" "ปราศจากน้ำตาล" "<=0.5" "nan" "nan" "nan" false
    none 30 "กรัม" [("sugar", some 0)] [("sugar", some 1)] [] (fun _ => none)
    (by decide) (by decide) (by decide)

/-! ## C10: energy/sodium/potassium round to non-negative multiples of 5 -/

theorem toNatCast_of_nonneg {m : ℤ} (hm : 0 ≤ m) : ((m.toNat : ℕ) : ℚ) = (m : ℚ) := by
  exact_mod_cast Int.toNat_of_nonneg hm

theorem energy_shape_mult5 (x : ℚ) (hx : 0 ≤ x) :
    ∃ k : ℕ, (if x < 5 then (0:ℚ) else if x < 50 then (pyRound (x/5) : ℚ) * 5
      else (pyRound (x/10) : ℚ) * 10) = 5 * (k : ℚ) := by
  by_cases h5 : x < 5
  · exact ⟨0, by rw [if_pos h5]; norm_num⟩
  · by_cases h50 : x < 50
    · have hm : (0:ℤ) ≤ pyRound (x/5) := le_pyRound_of_le (by push_cast; positivity)
      refine ⟨(pyRound (x/5)).toNat, ?_⟩
      rw [if_neg h5, if_pos h50, toNatCast_of_nonneg hm]
      ring
    · have hm : (0:ℤ) ≤ pyRound (x/10) := le_pyRound_of_le (by push_cast; positivity)
      refine ⟨2 * (pyRound (x/10)).toNat, ?_⟩
      rw [if_neg h5, if_neg h50]
      push_cast [toNatCast_of_nonneg hm]
      ring

theorem sodium_shape_mult5 (x : ℚ) (hx : 0 ≤ x) :
    ∃ k : ℕ, (if x < 5 then (0:ℚ) else if x ≤ 140 then (pyRound (x/5) : ℚ) * 5
      else (pyRound (x/10) : ℚ) * 10) = 5 * (k : ℚ) := by
  by_cases h5 : x < 5
  · exact ⟨0, by rw [if_pos h5]; norm_num⟩
  · by_cases h140 : x ≤ 140
    · have hm : (0:ℤ) ≤ pyRound (x/5) := le_pyRound_of_le (by push_cast; positivity)
      refine ⟨(pyRound (x/5)).toNat, ?_⟩
      rw [if_neg h5, if_pos h140, toNatCast_of_nonneg hm]
      ring
    · have hm : (0:ℤ) ≤ pyRound (x/10) := le_pyRound_of_le (by push_cast; positivity)
      refine ⟨2 * (pyRound (x/10)).toNat, ?_⟩
      rw [if_neg h5, if_neg h140]
      push_cast [toNatCast_of_nonneg hm]
      ring

/-- C10: for every non-negative input and a nutrient kind in the energy or
sodium/potassium rounding branches, `round_nutrition_value` returns
`5 * k` for some natural `k`: a non-negative integer multiple of 5, never a
negative "less-than" sentinel. -/
theorem C10_energy_sodium_multiple_of_five (x : ℚ) (kind : String) (hx : 0 ≤ x)
    (h : ["energy", "พลังงาน", "calories", "พลังงานจากไขมัน"].contains (strLower kind) = true
      ∨ ["sodium", "potassium", "โซเดียม", "โพแทสเซียม"].contains (strLower kind) = true) :
    ∃ k : ℕ, round_nutrition_value x kind 2 = 5 * (k : ℚ) := by
  rcases h with h | h
  · unfold round_nutrition_value
    rw [if_pos h]
    exact energy_shape_mult5 x hx
  · have hd : strLower kind = "sodium" ∨ strLower kind = "potassium"
        ∨ strLower kind = "โซเดียม" ∨ strLower kind = "โพแทสเซียม" := by simpa using h
    unfold round_nutrition_value
    rcases hd with h1 | h1 | h1 | h1 <;>
      rw [h1, if_neg (by decide), if_neg (by decide), if_neg (by decide), if_neg (by decide),
        if_neg (by decide), if_pos (by decide)] <;>
      exact sodium_shape_mult5 x hx

theorem C10_energy_sodium_multiple_of_five_witness :
    (0:ℚ) ≤ 47
    ∧ (["energy", "พลังงาน", "calories", "พลังงานจากไขมัน"].contains (strLower "energy") = true
      ∨ ["sodium", "potassium", "โซเดียม", "โพแทสเซียม"].contains (strLower "energy") = true)
    ∧ ∃ k : ℕ, round_nutrition_value 47 "energy" 2 = 5 * (k : ℚ) :=
  ⟨by norm_num, Or.inl (by decide),
    C10_energy_sodium_multiple_of_five 47 "energy" (by norm_num) (Or.inl (by decide))⟩

/-! ## C3: idempotence of `round_nutrition_value` on the rounding-table kinds.

Each named branch of the rounding table, in source order. -/

def energyRound (v : ℚ) : ℚ :=
  if v < 5 then 0 else if v < 50 then (pyRound (v / 5) : ℚ) * 5
  else (pyRound (v / 10) : ℚ) * 10

def fatRound (v : ℚ) : ℚ :=
  if v < 1/2 then 0 else if v < 5 then (pyRound (v * 2) : ℚ) / 2
  else (pyRound v : ℚ)

def transFatRound (v : ℚ) : ℚ :=
  if v = 0 then 0 else if v < 1/2 then -1/10
  else if v < 5 then (pyRound (v * 2) : ℚ) / 2
  else (pyRound v : ℚ)

def cholesterolRound (v : ℚ) : ℚ :=
  if v < 2 then 0 else if v < 5 then -1/5 else (pyRound (v / 5) : ℚ) * 5

def proteinRound (v : ℚ) : ℚ :=
  if v < 1/2 then 0 else if v < 1 then -3/10 else (pyRound v : ℚ)

def sodiumRound (v : ℚ) : ℚ :=
  if v < 5 then 0 else if v ≤ 140 then (pyRound (v / 5) : ℚ) * 5
  else (pyRound (v / 10) : ℚ) * 10

theorem round_eq_energy (v : ℚ) (kind : String) (p : ℕ)
    (h : ["energy", "พลังงาน", "calories", "พลังงานจากไขมัน"].contains (strLower kind) = true) :
    round_nutrition_value v kind p = energyRound v := by
  unfold round_nutrition_value energyRound
  rw [if_pos h]

theorem round_eq_fat (v : ℚ) (kind : String) (p : ℕ)
    (h : ["fat", "saturated_fat", "ไขมันทั้งหมด", "ไขมันอิ่มตัว", "ไขมัน"].contains
      (strLower kind) = true) :
    round_nutrition_value v kind p = fatRound v := by
  have hd : strLower kind = "fat" ∨ strLower kind = "saturated_fat"
      ∨ strLower kind = "ไขมันทั้งหมด" ∨ strLower kind = "ไขมันอิ่มตัว"
      ∨ strLower kind = "ไขมัน" := by simpa using h
  unfold round_nutrition_value fatRound
  rcases hd with h1 | h1 | h1 | h1 | h1 <;>
    rw [h1, if_neg (by decide), if_pos (by decide)]

theorem round_eq_transFat (v : ℚ) (kind : String) (p : ℕ)
    (h : ["trans_fat", "ไขมันทรานส์"].contains (strLower kind) = true) :
    round_nutrition_value v kind p = transFatRound v := by
  have hd : strLower kind = "trans_fat" ∨ strLower kind = "ไขมันทรานส์" := by simpa using h
  unfold round_nutrition_value transFatRound
  rcases hd with h1 | h1 <;>
    rw [h1, if_neg (by decide), if_neg (by decide), if_pos (by decide)]

theorem round_eq_cholesterol (v : ℚ) (kind : String) (p : ℕ)
    (h : ["cholesterol", "คอเลสเตอรอล"].contains (strLower kind) = true) :
    round_nutrition_value v kind p = cholesterolRound v := by
  have hd : strLower kind = "cholesterol" ∨ strLower kind = "คอเลสเตอรอล" := by simpa using h
  unfold round_nutrition_value cholesterolRound
  rcases hd with h1 | h1 <;>
    rw [h1, if_neg (by decide), if_neg (by decide), if_neg (by decide), if_pos (by decide)]

theorem round_eq_protein (v : ℚ) (kind : String) (p : ℕ)
    (h : ["protein", "carbohydrate", "fiber", "sugar",
          "โปรตีน", "คาร์โบไฮเดรต", "ใยอาหาร", "น้ำตาล"].contains (strLower kind) = true) :
    round_nutrition_value v kind p = proteinRound v := by
  have hd : strLower kind = "protein" ∨ strLower kind = "carbohydrate"
      ∨ strLower kind = "fiber" ∨ strLower kind = "sugar"
      ∨ strLower kind = "โปรตีน" ∨ strLower kind = "คาร์โบไฮเดรต"
      ∨ strLower kind = "ใยอาหาร" ∨ strLower kind = "น้ำตาล" := by simpa using h
  unfold round_nutrition_value proteinRound
  rcases hd with h1 | h1 | h1 | h1 | h1 | h1 | h1 | h1 <;>
    rw [h1, if_neg (by decide), if_neg (by decide), if_neg (by decide), if_neg (by decide),
      if_pos (by decide)]

theorem round_eq_sodium (v : ℚ) (kind : String) (p : ℕ)
    (h : ["sodium", "potassium", "โซเดียม", "โพแทสเซียม"].contains (strLower kind) = true) :
    round_nutrition_value v kind p = sodiumRound v := by
  have hd : strLower kind = "sodium" ∨ strLower kind = "potassium"
      ∨ strLower kind = "โซเดียม" ∨ strLower kind = "โพแทสเซียม" := by simpa using h
  unfold round_nutrition_value sodiumRound
  rcases hd with h1 | h1 | h1 | h1 <;>
    rw [h1, if_neg (by decide), if_neg (by decide), if_neg (by decide), if_neg (by decide),
      if_neg (by decide), if_pos (by decide)]

theorem energyRound_nonneg (v : ℚ) : 0 ≤ energyRound v := by
  unfold energyRound
  split_ifs with h1 h2
  · exact le_refl 0
  · push_neg at h1
    have hm : (1:ℤ) ≤ pyRound (v / 5) :=
      le_pyRound_of_le (by push_cast; rw [le_div_iff (by norm_num : (0:ℚ) < 5)]; linarith)
    have hq : (1:ℚ) ≤ (pyRound (v / 5) : ℚ) := by exact_mod_cast hm
    linarith
  · push_neg at h1
    have hm : (0:ℤ) ≤ pyRound (v / 10) :=
      le_pyRound_of_le (by push_cast; rw [le_div_iff (by norm_num : (0:ℚ) < 10)]; linarith)
    have hq : (0:ℚ) ≤ (pyRound (v / 10) : ℚ) := by exact_mod_cast hm
    linarith

theorem energyRound_idem (v : ℚ) : energyRound (energyRound v) = energyRound v := by
  by_cases h1 : v < 5
  · unfold energyRound
    rw [if_pos h1, if_pos (by norm_num : (0:ℚ) < 5)]
  · push_neg at h1
    by_cases h2 : v < 50
    · unfold energyRound
      rw [if_neg (not_lt.mpr h1), if_pos h2]
      have hm1 : (1:ℤ) ≤ pyRound (v / 5) :=
        le_pyRound_of_le (by push_cast; rw [le_div_iff (by norm_num : (0:ℚ) < 5)]; linarith)
      have hm10 : pyRound (v / 5) ≤ 10 :=
        pyRound_le_of_le (by push_cast; rw [div_le_iff (by norm_num : (0:ℚ) < 5)]; linarith)
      set m := pyRound (v / 5) with hm
      have hq1 : (1:ℚ) ≤ (m : ℚ) := by exact_mod_cast hm1
      rw [if_neg (by linarith : ¬ (m:ℚ) * 5 < 5)]
      by_cases h9 : m ≤ 9
      · have hq9 : (m:ℚ) ≤ 9 := by exact_mod_cast h9
        rw [if_pos (by linarith : (m:ℚ) * 5 < 50)]
        rw [show (m:ℚ) * 5 / 5 = (m:ℚ) from by rw [mul_div_assoc]; norm_num]
        rw [pyRound_intCast]
      · have h10 : m = 10 := le_antisymm hm10 (by omega)
        rw [h10]
        rw [if_neg (by norm_num : ¬ ((10:ℤ):ℚ) * 5 < 50)]
        rw [show ((10:ℤ):ℚ) * 5 / 10 = ((5:ℤ):ℚ) from by norm_num, pyRound_intCast]
        norm_num
    · push_neg at h2
      unfold energyRound
      rw [if_neg (not_lt.mpr h1), if_neg (not_lt.mpr h2)]
      have hm5 : (5:ℤ) ≤ pyRound (v / 10) :=
        le_pyRound_of_le (by push_cast; rw [le_div_iff (by norm_num : (0:ℚ) < 10)]; linarith)
      set m := pyRound (v / 10) with hm
      have hq5 : (5:ℚ) ≤ (m : ℚ) := by exact_mod_cast hm5
      rw [if_neg (by linarith : ¬ (m:ℚ) * 10 < 5), if_neg (by linarith : ¬ (m:ℚ) * 10 < 50)]
      rw [show (m:ℚ) * 10 / 10 = (m:ℚ) from by rw [mul_div_assoc]; norm_num]
      rw [pyRound_intCast]

theorem fatRound_nonneg (v : ℚ) : 0 ≤ fatRound v := by
  unfold fatRound
  split_ifs with h1 h2
  · exact le_refl 0
  · push_neg at h1
    have hm : (1:ℤ) ≤ pyRound (v * 2) := le_pyRound_of_le (by push_cast; linarith)
    have hq : (1:ℚ) ≤ (pyRound (v * 2) : ℚ) := by exact_mod_cast hm
    linarith
  · push_neg at h1 h2
    have hm : (5:ℤ) ≤ pyRound v := le_pyRound_of_le (by push_cast; linarith)
    have hq : (5:ℚ) ≤ (pyRound v : ℚ) := by exact_mod_cast hm
    linarith

theorem fatRound_idem (v : ℚ) : fatRound (fatRound v) = fatRound v := by
  by_cases h1 : v < 1/2
  · unfold fatRound
    rw [if_pos h1, if_pos (by norm_num : (0:ℚ) < 1/2)]
  · push_neg at h1
    by_cases h2 : v < 5
    · unfold fatRound
      rw [if_neg (not_lt.mpr h1), if_pos h2]
      have hm1 : (1:ℤ) ≤ pyRound (v * 2) := le_pyRound_of_le (by push_cast; linarith)
      have hm10 : pyRound (v * 2) ≤ 10 := pyRound_le_of_le (by push_cast; linarith)
      set m := pyRound (v * 2) with hm
      have hq1 : (1:ℚ) ≤ (m : ℚ) := by exact_mod_cast hm1
      rw [if_neg (by linarith : ¬ (m:ℚ) / 2 < 1/2)]
      by_cases h9 : m ≤ 9
      · have hq9 : (m:ℚ) ≤ 9 := by exact_mod_cast h9
        rw [if_pos (by linarith : (m:ℚ) / 2 < 5)]
        rw [show (m:ℚ) / 2 * 2 = (m:ℚ) from by field_simp]
        rw [pyRound_intCast]
      · have h10 : m = 10 := le_antisymm hm10 (by omega)
        rw [h10]
        rw [if_neg (by norm_num : ¬ ((10:ℤ):ℚ) / 2 < 5)]
        rw [show ((10:ℤ):ℚ) / 2 = ((5:ℤ):ℚ) from by norm_num, pyRound_intCast]
    · push_neg at h2
      unfold fatRound
      rw [if_neg (not_lt.mpr h1), if_neg (not_lt.mpr h2)]
      have hm5 : (5:ℤ) ≤ pyRound v := le_pyRound_of_le (by push_cast; linarith)
      set m := pyRound v with hm
      have hq5 : (5:ℚ) ≤ (m : ℚ) := by exact_mod_cast hm5
      rw [if_neg (by linarith : ¬ (m:ℚ) < 1/2), if_neg (by linarith : ¬ (m:ℚ) < 5)]
      rw [pyRound_intCast]

theorem transFatRound_idem (v : ℚ) : transFatRound (transFatRound v) = transFatRound v := by
  by_cases h0 : v = 0
  · unfold transFatRound
    rw [if_pos h0, if_pos rfl]
  · by_cases h1 : v < 1/2
    · unfold transFatRound
      rw [if_neg h0, if_pos h1, if_neg (by norm_num : ¬ (-1/10 : ℚ) = 0),
        if_pos (by norm_num : (-1/10 : ℚ) < 1/2)]
    · push_neg at h1
      by_cases h2 : v < 5
      · unfold transFatRound
        rw [if_neg h0, if_neg (not_lt.mpr h1), if_pos h2]
        have hm1 : (1:ℤ) ≤ pyRound (v * 2) := le_pyRound_of_le (by push_cast; linarith)
        have hm10 : pyRound (v * 2) ≤ 10 := pyRound_le_of_le (by push_cast; linarith)
        set m := pyRound (v * 2) with hm
        have hq1 : (1:ℚ) ≤ (m : ℚ) := by exact_mod_cast hm1
        rw [if_neg (by intro h; linarith : ¬ (m:ℚ) / 2 = 0),
          if_neg (by linarith : ¬ (m:ℚ) / 2 < 1/2)]
        by_cases h9 : m ≤ 9
        · have hq9 : (m:ℚ) ≤ 9 := by exact_mod_cast h9
          rw [if_pos (by linarith : (m:ℚ) / 2 < 5)]
          rw [show (m:ℚ) / 2 * 2 = (m:ℚ) from by field_simp]
          rw [pyRound_intCast]
        · have h10 : m = 10 := le_antisymm hm10 (by omega)
          rw [h10]
          rw [if_neg (by norm_num : ¬ ((10:ℤ):ℚ) / 2 < 5)]
          rw [show ((10:ℤ):ℚ) / 2 = ((5:ℤ):ℚ) from by norm_num, pyRound_intCast]
      · push_neg at h2
        unfold transFatRound
        rw [if_neg h0, if_neg (not_lt.mpr h1), if_neg (not_lt.mpr h2)]
        have hm5 : (5:ℤ) ≤ pyRound v := le_pyRound_of_le (by push_cast; linarith)
        set m := pyRound v with hm
        have hq5 : (5:ℚ) ≤ (m : ℚ) := by exact_mod_cast hm5
        rw [if_neg (by intro h; linarith : ¬ (m:ℚ) = 0),
          if_neg (by linarith : ¬ (m:ℚ) < 1/2), if_neg (by linarith : ¬ (m:ℚ) < 5)]
        rw [pyRound_intCast]

theorem transFatRound_ne_sentinels (v : ℚ) :
    transFatRound v ≠ -1/5 ∧ transFatRound v ≠ -3/10 := by
  unfold transFatRound
  split_ifs with h0 h1 h2
  · constructor <;> norm_num
  · constructor <;> norm_num
  · push_neg at h1
    have hm1 : (1:ℤ) ≤ pyRound (v * 2) := le_pyRound_of_le (by push_cast; linarith)
    have hq1 : (1:ℚ) ≤ (pyRound (v * 2) : ℚ) := by exact_mod_cast hm1
    constructor <;> intro h <;> linarith
  · push_neg at h1 h2
    have hm5 : (5:ℤ) ≤ pyRound v := le_pyRound_of_le (by push_cast; linarith)
    have hq5 : (5:ℚ) ≤ (pyRound v : ℚ) := by exact_mod_cast hm5
    constructor <;> intro h <;> linarith

theorem cholesterolRound_second (v : ℚ) :
    cholesterolRound (cholesterolRound v)
      = if cholesterolRound v = -1/5 ∨ cholesterolRound v = -3/10 then 0
        else cholesterolRound v := by
  by_cases h1 : v < 2
  · unfold cholesterolRound
    rw [if_pos h1, if_pos (by norm_num : (0:ℚ) < 2),
      if_neg (by norm_num : ¬ ((0:ℚ) = -1/5 ∨ (0:ℚ) = -3/10))]
  · push_neg at h1
    by_cases h2 : v < 5
    · unfold cholesterolRound
      rw [if_neg (not_lt.mpr h1), if_pos h2, if_pos (by norm_num : (-1/5 : ℚ) < 2),
        if_pos (Or.inl rfl)]
    · push_neg at h2
      unfold cholesterolRound
      rw [if_neg (not_lt.mpr h1), if_neg (not_lt.mpr h2)]
      have hm1 : (1:ℤ) ≤ pyRound (v / 5) :=
        le_pyRound_of_le (by push_cast; rw [le_div_iff₀ (by norm_num : (0:ℚ) < 5)]; linarith)
      set m := pyRound (v / 5) with hm
      have hq1 : (1:ℚ) ≤ (m : ℚ) := by exact_mod_cast hm1
      rw [if_neg (by linarith : ¬ (m:ℚ) * 5 < 2), if_neg (by linarith : ¬ (m:ℚ) * 5 < 5)]
      rw [show (m:ℚ) * 5 / 5 = (m:ℚ) from by rw [mul_div_assoc]; norm_num]
      rw [pyRound_intCast]
      rw [if_neg (by rintro (h | h) <;> linarith :
        ¬ ((m:ℚ) * 5 = -1/5 ∨ (m:ℚ) * 5 = -3/10))]

theorem proteinRound_second (v : ℚ) :
    proteinRound (proteinRound v)
      = if proteinRound v = -1/5 ∨ proteinRound v = -3/10 then 0
        else proteinRound v := by
  by_cases h1 : v < 1/2
  · unfold proteinRound
    rw [if_pos h1, if_pos (by norm_num : (0:ℚ) < 1/2),
      if_neg (by norm_num : ¬ ((0:ℚ) = -1/5 ∨ (0:ℚ) = -3/10))]
  · push_neg at h1
    by_cases h2 : v < 1
    · unfold proteinRound
      rw [if_neg (not_lt.mpr h1), if_pos h2, if_pos (by norm_num : (-3/10 : ℚ) < 1/2),
        if_pos (Or.inr rfl)]
    · push_neg at h2
      unfold proteinRound
      rw [if_neg (not_lt.mpr h1), if_neg (not_lt.mpr h2)]
      have hm1 : (1:ℤ) ≤ pyRound v := le_pyRound_of_le (by push_cast; linarith)
      set m := pyRound v with hm
      have hq1 : (1:ℚ) ≤ (m : ℚ) := by exact_mod_cast hm1
      rw [if_neg (by linarith : ¬ (m:ℚ) < 1/2), if_neg (by linarith : ¬ (m:ℚ) < 1)]
      rw [pyRound_intCast]
      rw [if_neg (by rintro (h | h) <;> linarith :
        ¬ ((m:ℚ) = -1/5 ∨ (m:ℚ) = -3/10))]

theorem sodiumRound_nonneg (v : ℚ) : 0 ≤ sodiumRound v := by
  unfold sodiumRound
  split_ifs with h1 h2
  · exact le_refl 0
  · push_neg at h1
    have hm : (1:ℤ) ≤ pyRound (v / 5) :=
      le_pyRound_of_le (by push_cast; rw [le_div_iff₀ (by norm_num : (0:ℚ) < 5)]; linarith)
    have hq : (1:ℚ) ≤ (pyRound (v / 5) : ℚ) := by exact_mod_cast hm
    linarith
  · push_neg at h1
    have hm : (0:ℤ) ≤ pyRound (v / 10) :=
      le_pyRound_of_le (by push_cast; rw [le_div_iff₀ (by norm_num : (0:ℚ) < 10)]; linarith)
    have hq : (0:ℚ) ≤ (pyRound (v / 10) : ℚ) := by exact_mod_cast hm
    linarith

theorem sodiumRound_idem (v : ℚ) : sodiumRound (sodiumRound v) = sodiumRound v := by
  by_cases h1 : v < 5
  · unfold sodiumRound
    rw [if_pos h1, if_pos (by norm_num : (0:ℚ) < 5)]
  · push_neg at h1
    by_cases h2 : v ≤ 140
    · unfold sodiumRound
      rw [if_neg (not_lt.mpr h1), if_pos h2]
      have hm1 : (1:ℤ) ≤ pyRound (v / 5) :=
        le_pyRound_of_le (by push_cast; rw [le_div_iff₀ (by norm_num : (0:ℚ) < 5)]; linarith)
      have hm28 : pyRound (v / 5) ≤ 28 :=
        pyRound_le_of_le (by push_cast; rw [div_le_iff₀ (by norm_num : (0:ℚ) < 5)]; linarith)
      set m := pyRound (v / 5) with hm
      have hq1 : (1:ℚ) ≤ (m : ℚ) := by exact_mod_cast hm1
      have hq28 : (m:ℚ) ≤ 28 := by exact_mod_cast hm28
      rw [if_neg (by linarith : ¬ (m:ℚ) * 5 < 5), if_pos (by linarith : (m:ℚ) * 5 ≤ 140)]
      rw [show (m:ℚ) * 5 / 5 = (m:ℚ) from by rw [mul_div_assoc]; norm_num]
      rw [pyRound_intCast]
    · push_neg at h2
      unfold sodiumRound
      rw [if_neg (not_lt.mpr h1), if_neg (not_le.mpr h2)]
      have hm14 : (14:ℤ) ≤ pyRound (v / 10) :=
        le_pyRound_of_le (by push_cast; rw [le_div_iff₀ (by norm_num : (0:ℚ) < 10)]; linarith)
      set m := pyRound (v / 10) with hm
      have hq14 : (14:ℚ) ≤ (m : ℚ) := by exact_mod_cast hm14
      rw [if_neg (by linarith : ¬ (m:ℚ) * 10 < 5)]
      by_cases h14 : m ≤ 14
      · have hm' : m = 14 := le_antisymm h14 (by omega)
        rw [hm']
        rw [if_pos (by norm_num : ((14:ℤ):ℚ) * 10 ≤ 140)]
        rw [show ((14:ℤ):ℚ) * 10 / 5 = ((28:ℤ):ℚ) from by norm_num, pyRound_intCast]
        norm_num
      · push_neg at h14
        have hq15 : (15:ℚ) ≤ (m : ℚ) := by exact_mod_cast h14
        rw [if_neg (by linarith : ¬ (m:ℚ) * 10 ≤ 140)]
        rw [show (m:ℚ) * 10 / 10 = (m:ℚ) from by rw [mul_div_assoc]; norm_num]
        rw [pyRound_intCast]

/-- C3 counterexample: rounding is NOT idempotent on the rounding table.
For cholesterol at value 3 the first rounding yields the sentinel value
-1/5 (Python -0.2, displayed as "less than 5 mg"), and rounding that
sentinel again yields 0, not -1/5. -/
theorem C3_reround_counterexample :
    round_nutrition_value 3 "cholesterol" 2 = -1/5
    ∧ round_nutrition_value (round_nutrition_value 3 "cholesterol" 2) "cholesterol" 2 = 0
    ∧ (0 : ℚ) ≠ -1/5 := by
  have h1 : round_nutrition_value 3 "cholesterol" 2 = -1/5 := by
    unfold round_nutrition_value
    rw [if_neg (by decide), if_neg (by decide), if_neg (by decide), if_pos (by decide)]
    norm_num
  refine ⟨h1, ?_, by norm_num⟩
  rw [h1]
  unfold round_nutrition_value
  rw [if_neg (by decide), if_neg (by decide), if_neg (by decide), if_pos (by decide)]
  norm_num

/-- C3 (amended): for every nutrient kind in the rounding table,
re-rounding an already-rounded value returns the same value EXCEPT when
the first rounding produced the sentinel -1/5 (cholesterol) or -3/10
(protein family), in which case the second rounding collapses the
sentinel to 0. The trans-fat sentinel -1/10 and all non-sentinel outputs
are genuine fixed points. -/
theorem C3_reround_sentinel_collapse (x : ℚ) (kind : String)
    (h : ["energy", "พลังงาน", "calories", "พลังงานจากไขมัน"].contains (strLower kind) = true
      ∨ ["fat", "saturated_fat", "ไขมันทั้งหมด", "ไขมันอิ่มตัว", "ไขมัน"].contains
          (strLower kind) = true
      ∨ ["trans_fat", "ไขมันทรานส์"].contains (strLower kind) = true
      ∨ ["cholesterol", "คอเลสเตอรอล"].contains (strLower kind) = true
      ∨ ["protein", "carbohydrate", "fiber", "sugar",
         "โปรตีน", "คาร์โบไฮเดรต", "ใยอาหาร", "น้ำตาล"].contains (strLower kind) = true
      ∨ ["sodium", "potassium", "โซเดียม", "โพแทสเซียม"].contains (strLower kind) = true) :
    round_nutrition_value (round_nutrition_value x kind 2) kind 2
      = if round_nutrition_value x kind 2 = -1/5 ∨ round_nutrition_value x kind 2 = -3/10
        then 0 else round_nutrition_value x kind 2 := by
  rcases h with h | h | h | h | h | h
  · rw [round_eq_energy x kind 2 h, round_eq_energy (energyRound x) kind 2 h]
    rw [if_neg (by rintro (hs | hs) <;> linarith [energyRound_nonneg x])]
    exact energyRound_idem x
  · rw [round_eq_fat x kind 2 h, round_eq_fat (fatRound x) kind 2 h]
    rw [if_neg (by rintro (hs | hs) <;> linarith [fatRound_nonneg x])]
    exact fatRound_idem x
  · rw [round_eq_transFat x kind 2 h, round_eq_transFat (transFatRound x) kind 2 h]
    rw [if_neg (by rintro (hs | hs) <;>
      [exact (transFatRound_ne_sentinels x).1 hs; exact (transFatRound_ne_sentinels x).2 hs])]
    exact transFatRound_idem x
  · rw [round_eq_cholesterol x kind 2 h, round_eq_cholesterol (cholesterolRound x) kind 2 h]
    exact cholesterolRound_second x
  · rw [round_eq_protein x kind 2 h, round_eq_protein (proteinRound x) kind 2 h]
    exact proteinRound_second x
  · rw [round_eq_sodium x kind 2 h, round_eq_sodium (sodiumRound x) kind 2 h]
    rw [if_neg (by rintro (hs | hs) <;> linarith [sodiumRound_nonneg x])]
    exact sodiumRound_idem x

theorem C3_reround_sentinel_collapse_witness :
    (["energy", "พลังงาน", "calories", "พลังงานจากไขมัน"].contains (strLower "cholesterol") = true
      ∨ ["fat", "saturated_fat", "ไขมันทั้งหมด", "ไขมันอิ่มตัว", "ไขมัน"].contains
          (strLower "cholesterol") = true
      ∨ ["trans_fat", "ไขมันทรานส์"].contains (strLower "cholesterol") = true
      ∨ ["cholesterol", "คอเลสเตอรอล"].contains (strLower "cholesterol") = true
      ∨ ["protein", "carbohydrate", "fiber", "sugar",
         "โปรตีน", "คาร์โบไฮเดรต", "ใยอาหาร", "น้ำตาล"].contains (strLower "cholesterol") = true
      ∨ ["sodium", "potassium", "โซเดียม", "โพแทสเซียม"].contains (strLower "cholesterol") = true)
    ∧ round_nutrition_value (round_nutrition_value 3 "cholesterol" 2) "cholesterol" 2
      = if round_nutrition_value 3 "cholesterol" 2 = -1/5
          ∨ round_nutrition_value 3 "cholesterol" 2 = -3/10
        then 0 else round_nutrition_value 3 "cholesterol" 2 :=
  ⟨Or.inr (Or.inr (Or.inr (Or.inl (by decide)))),
    C3_reround_sentinel_collapse 3 "cholesterol"
      (Or.inr (Or.inr (Or.inr (Or.inl (by decide)))))⟩
